import Mathlib

/-!
Formal model of the probabilistic outcome engine of the damage-calc
repository: the EV grid and weighting engine (ev-grid source file), the
damage computation LRU cache (calc/cache.ts), the branching timeline
simulator (timeline source file) and the worker job orchestration loop
(worker source file).

JavaScript numbers are modelled as rationals (ℚ): every arithmetic
operation the sources perform on the modelled paths (addition,
subtraction, multiplication, division, floor, round, min, max) is exact
on the values the program manipulates, so ℚ is a faithful carrier and
statements proved exactly imply the floating-point-tolerance versions in
the specification.  `Math.floor` is `Int.floor`, `Math.round` is
Mathlib's `round` (both round half towards positive infinity).
Optional (possibly `undefined`) fields are `Option`; the JavaScript
`a ?? b` operator is `Option.getD` / `Option.or`.

External collaborators (the `@smogon/calc` damage calculator and the
`@pkmn/dex` catalog) are opaque per the specification and are modelled
as oracle functions carried in the simulation context.
-/

namespace EVGrid

/-- Grid point kind tag, source literals "defense" / "offense". -/
inductive GridKind
  | defense
  | offense
deriving DecidableEq, Repr

/-- EVGridPoint of the ev-grid source file: a candidate stat investment
with a prior weight, a posterior weight and optional result metrics. -/
structure EVGridPoint where
  hpEV : ℚ
  defEV : ℚ
  atkEV : Option ℚ := none
  spaEV : Option ℚ := none
  kind : Option GridKind := none
  priorWeight : ℚ
  weight : ℚ
  survival : Option ℚ := none
  koChance : Option ℚ := none
  observationLikelihood : Option ℚ := none
  damageRangeLikelihood : Option ℚ := none
deriving DecidableEq, Repr

/-- Sum of the weight fields, the `points.reduce((acc, p) => acc + p.weight, 0)`
of `normalizeWeights`. -/
def sumWeights (points : List EVGridPoint) : ℚ :=
  points.foldl (fun acc point => acc + point.weight) 0

/-- normalizeWeights: rescale so the weights sum to 1; when the sum is
non-positive fall back to the uniform distribution 1 / max(n, 1). -/
def normalizeWeights (points : List EVGridPoint) : List EVGridPoint :=
  let sum := sumWeights points
  if sum ≤ 0 then
    let uniform : ℚ := 1 / (max points.length 1 : ℕ)
    points.map (fun point => { point with weight := uniform })
  else
    points.map (fun point => { point with weight := point.weight / sum })

/-- One step of `applyObservationLikelihoods`: the body of the forEach:
clamp the likelihood at index (missing entries read as 0) to be
non-negative, record it and set weight to priorWeight times it. -/
def updateLikelihood (likelihoods : List ℚ) (index : ℕ) (point : EVGridPoint) :
    EVGridPoint :=
  let likelihood := max (likelihoods.getD index 0) 0
  { point with
    observationLikelihood := some likelihood
    weight := point.priorWeight * likelihood }

/-- Index-tracking traversal of the forEach in `applyObservationLikelihoods`. -/
def applyLikelihoodsGo (likelihoods : List ℚ) : ℕ → List EVGridPoint → List EVGridPoint
  | _, [] => []
  | index, point :: rest =>
      updateLikelihood likelihoods index point ::
        applyLikelihoodsGo likelihoods (index + 1) rest

/-- applyObservationLikelihoods: Bayesian posterior update.  With no
likelihood array it only renormalizes; otherwise each weight becomes
priorWeight times the (clamped) likelihood, then renormalize. -/
def applyObservationLikelihoods (points : List EVGridPoint)
    (likelihoods : Option (List ℚ)) : List EVGridPoint :=
  match likelihoods with
  | none => normalizeWeights points
  | some ls => normalizeWeights (applyLikelihoodsGo ls 0 points)

/-- EVPlan returned by `rankTopPlans`. -/
structure EVPlan where
  hpEV : ℚ
  defEV : ℚ
  survival : ℚ
  investment : ℚ
  totalEV : ℚ
  meetsTarget : Bool
deriving DecidableEq, Repr

/-- toPlan of the ev-grid source file (the no-target branch, meetsTarget
false). -/
def toPlan (point : EVGridPoint) : EVPlan :=
  { hpEV := point.hpEV
    defEV := point.defEV
    survival := point.survival.getD 0
    investment := point.hpEV + point.defEV
    totalEV := point.hpEV + point.defEV
    meetsTarget := false }

/-- Comparator of the survival-descending sort in the no-target branch of
`rankTopPlans`, as a boolean total preorder for mergeSort. -/
def survivalDescLE (a b : EVGridPoint) : Bool :=
  decide (b.survival.getD 0 ≤ a.survival.getD 0)

/-- Comparator of the qualifying-candidates sort of `rankTopPlans`:
ascending total investment, ties broken by descending survival. -/
def planOrderLE (a b : EVGridPoint) : Bool :=
  decide (a.hpEV + a.defEV < b.hpEV + b.defEV) ||
    (decide (a.hpEV + a.defEV = b.hpEV + b.defEV) &&
      decide (b.survival.getD 0 ≤ a.survival.getD 0))

/-- Tolerance 1e-4 used when filtering against the survival target. -/
def TARGET_EPS : ℚ := 1 / 10000

/-- Tolerance 1e-6 (MIN_EV_EPS) used when collecting investment ties. -/
def MIN_EV_EPS : ℚ := 1 / 1000000

/-- rankTopPlans: with no positive target return the top three points by
descending survival; with a positive target filter to points within
TARGET_EPS of the target, sort ascending by total investment (ties by
descending survival), and return every qualifying point whose total
investment is within MIN_EV_EPS of the minimum. -/
def rankTopPlans (points : List EVGridPoint) (target : Option ℚ) : List EVPlan :=
  match target with
  | none => ((points.mergeSort survivalDescLE).take 3).map toPlan
  | some t =>
    if t ≤ 0 then ((points.mergeSort survivalDescLE).take 3).map toPlan
    else
      let candidates :=
        points.filter (fun point => decide (t - TARGET_EPS ≤ point.survival.getD 0))
      let sorted := candidates.mergeSort planOrderLE
      match sorted with
      | [] => []
      | c0 :: _ =>
        let minTotal := c0.hpEV + c0.defEV
        let minimalCandidates :=
          sorted.filter (fun point =>
            decide (|point.hpEV + point.defEV - minTotal| ≤ MIN_EV_EPS))
        minimalCandidates.map (fun point =>
          { hpEV := point.hpEV
            defEV := point.defEV
            survival := point.survival.getD 0
            investment := point.hpEV + point.defEV
            totalEV := point.hpEV + point.defEV
            meetsTarget := true })

/-- Sortable offense entry built inside `rankOffensePlans`. -/
structure OffenseEntry where
  atkEV : ℚ
  spaEV : ℚ
  koChance : ℚ
  totalEV : ℚ
deriving DecidableEq, Repr

/-- EVOffensePlan returned by `rankOffensePlans` (entry plus meetsTarget). -/
structure EVOffensePlan where
  atkEV : ℚ
  spaEV : ℚ
  koChance : ℚ
  totalEV : ℚ
  meetsTarget : Bool
deriving DecidableEq, Repr

/-- Comparator of the baseSorted sort in `rankOffensePlans`: descending
KO chance, then ascending total EV, then ascending atk EV, then
ascending spa EV. -/
def offenseOrderLE (a b : OffenseEntry) : Bool :=
  decide (b.koChance < a.koChance) ||
    (decide (a.koChance = b.koChance) &&
      (decide (a.totalEV < b.totalEV) ||
        (decide (a.totalEV = b.totalEV) &&
          (decide (a.atkEV < b.atkEV) ||
            (decide (a.atkEV = b.atkEV) && decide (a.spaEV ≤ b.spaEV))))))

/-- Tolerance KO_EPS = 1e-4 grouping near-equal KO chances. -/
def KO_EPS : ℚ := 1 / 10000

/-- Tolerance EV_EPS = 1e-6 for minimal-investment ties inside a tier. -/
def EV_EPS : ℚ := 1 / 1000000

/-- Minimum of the totalEV fields of a chance group,
`Math.min(...chanceGroup.map((entry) => entry.totalEV))`. -/
def minTotalEV (head : OffenseEntry) (rest : List OffenseEntry) : ℚ :=
  rest.foldl (fun acc entry => min acc entry.totalEV) head.totalEV

/-- The `meets` predicate of `rankOffensePlans`: with a positive target,
KO chance at least target minus KO_EPS; otherwise false. -/
def offenseMeets (target : Option ℚ) (entry : OffenseEntry) : Bool :=
  match target with
  | some t => if 0 < t then decide (t - KO_EPS ≤ entry.koChance) else false
  | none => false

/-- The tier-accumulation while loop of `rankOffensePlans`: group the
pool by KO chances within KO_EPS of the group head, keep the entries of
each group with minimal total EV (within EV_EPS), and accumulate up to
three results. -/
def selectTiers (pool selected : List OffenseEntry) : List OffenseEntry :=
  match h : pool with
  | [] => selected
  | head :: tl =>
    if 3 ≤ selected.length then selected
    else
      let inTier := fun entry => decide (|entry.koChance - head.koChance| ≤ KO_EPS)
      let chanceGroup := pool.takeWhile inTier
      let rest := pool.dropWhile inTier
      let minEV :=
        match chanceGroup with
        | [] => 0
        | g0 :: gs => minTotalEV g0 gs
      let minimal :=
        chanceGroup.filter (fun entry => decide (|entry.totalEV - minEV| ≤ EV_EPS))
      selectTiers rest (selected ++ minimal.take (3 - selected.length))
termination_by pool.length
decreasing_by
  have hko : (decide (|head.koChance - head.koChance| ≤ KO_EPS)) = true := by
    norm_num [KO_EPS]
  simp only [h, List.dropWhile_cons, hko, if_true]
  refine Nat.lt_succ_of_le ?_
  clear h
  induction tl with
  | nil => simp
  | cons a t ih =>
    rw [List.dropWhile_cons]
    split
    · exact Nat.le_succ_of_le ih
    · simp

/-- rankOffensePlans: filter to offense points with a numeric KO chance,
sort, filter by the target when one is given but fall back to the full
sorted pool when nothing meets it, then pick tiers. -/
def rankOffensePlans (points : List EVGridPoint) (target : Option ℚ) :
    List EVOffensePlan :=
  let offensePoints := points.filter (fun point => point.kind = some GridKind.offense)
  let sortable :=
    (offensePoints.filter (fun point => point.koChance.isSome)).map
      (fun point =>
        { atkEV := point.atkEV.getD 0
          spaEV := point.spaEV.getD 0
          koChance := point.koChance.getD 0
          totalEV := point.atkEV.getD 0 + point.spaEV.getD 0 : OffenseEntry })
  match sortable with
  | [] => []
  | _ =>
    let baseSorted := sortable.mergeSort offenseOrderLE
    let targetActive : Bool := match target with
      | some t => decide (0 < t)
      | none => false
    let pool0 := if targetActive then baseSorted.filter (offenseMeets target)
      else baseSorted
    let pool := if pool0 = [] then baseSorted else pool0
    (selectTiers pool []).map (fun entry =>
      { atkEV := entry.atkEV
        spaEV := entry.spaEV
        koChance := entry.koChance
        totalEV := entry.totalEV
        meetsTarget := offenseMeets target entry })

/-- MetaProfile entry of the META_PROFILES table. -/
structure MetaProfile where
  hpMean : ℚ
  defMean : ℚ
  hpSigma : ℚ
  defSigma : ℚ
  correlation : Option ℚ := none
deriving DecidableEq, Repr

/-- The balanced profile, the fallback of the record lookup. -/
def balancedProfile : MetaProfile :=
  { hpMean := 196, defMean := 92, hpSigma := 48, defSigma := 40
    correlation := some (2 / 10) }

/-- META_PROFILES record lookup by name. -/
def META_PROFILES (name : String) : Option MetaProfile :=
  if name = "bulky" then
    some { hpMean := 244, defMean := 108, hpSigma := 42, defSigma := 36
           correlation := some (35 / 100) }
  else if name = "balanced" then some balancedProfile
  else if name = "agile" then
    some { hpMean := 164, defMean := 68, hpSigma := 50, defSigma := 34
           correlation := some (1 / 10) }
  else none

/-- Custom prior weight entry of the prior configuration. -/
structure CustomWeightEntry where
  hpEV : ℚ
  defEV : ℚ
  weight : ℚ
deriving DecidableEq, Repr

/-- Prior specification: either a bare string or an object carrying a
type tag with optional custom weights and meta-profile name. -/
inductive PriorConfig
  | str (value : String)
  | obj (type : String) (customWeights : Option (List CustomWeightEntry))
      (metaProfile : Option String)
deriving DecidableEq, Repr

/-- EVGridConfig fields consumed by the two grid builders. -/
structure EVGridConfig where
  hpRange : ℚ × ℚ
  defRange : ℚ × ℚ
  axisStep : ℚ
  maxCombinedEV : Option ℚ := none
  atkRange : Option (ℚ × ℚ) := none
  spaRange : Option (ℚ × ℚ) := none
  offenseStep : Option ℚ := none
  offenseMaxCombinedEV : Option ℚ := none
  prior : PriorConfig
deriving DecidableEq, Repr

/-- computeBivariateGaussian evaluated with the transcendental Math.exp
abstracted as the oracle argument expQ (its values never influence the
grid structure, only the prior weights). -/
def computeBivariateGaussian (expQ : ℚ → ℚ) (hpEV defEV : ℚ)
    (profile : MetaProfile) : ℚ :=
  let x := (hpEV - profile.hpMean) / profile.hpSigma
  let y := (defEV - profile.defMean) / profile.defSigma
  let rho := profile.correlation.getD 0
  let exponent := -1 / (2 * (1 - rho * rho)) * (x * x - 2 * rho * x * y + y * y)
  expQ exponent

/-- computePriorWeight: uniform priors are 1; custom priors look the point
up in the custom weight list (missing points get the epsilon 1e-6); any
other type resolves a meta profile (falling back to balanced) and
evaluates the bivariate Gaussian. -/
def computePriorWeight (expQ : ℚ → ℚ) (config : EVGridConfig)
    (hpEV defEV : ℚ) : ℚ :=
  let type := match config.prior with
    | .str s => s
    | .obj t _ _ => t
  if type = "uniform" then 1
  else
    let customResult : Option ℚ :=
      if type = "custom" then
        let customWeights := match config.prior with
          | .str _ => none
          | .obj _ cw _ => cw
        match customWeights with
        | some entries =>
          if entries.length ≠ 0 then
            some (match entries.find? (fun entry =>
                decide (entry.hpEV = hpEV) && decide (entry.defEV = defEV)) with
              | some m => max m.weight 0
              | none => 1 / 1000000)
          else none
        | none => none
      else none
    match customResult with
    | some w => w
    | none =>
      let metaProfileKey := match config.prior with
        | .str s => s
        | .obj _ _ mp => mp.getD "balanced"
      let profile := (META_PROFILES metaProfileKey).getD balancedProfile
      computeBivariateGaussian expQ hpEV defEV profile

/-- Values visited by one `for (v = lo; v <= hi; v += step)` axis loop of
the grid builders.  Both call sites clamp the step to at least 4, which
is what makes the source loops terminate; the positivity guard here can
therefore never take its else branch at a call site. -/
def axisValues (lo hi step : ℚ) : List ℚ :=
  if hstep : 0 < step then
    if hle : lo ≤ hi then lo :: axisValues (lo + step) hi step
    else []
  else []
termination_by (⌊(hi - lo) / step⌋ + 1).toNat
decreasing_by
  have hq : 0 ≤ ⌊(hi - lo) / step⌋ :=
    Int.floor_nonneg.2 (div_nonneg (by linarith) hstep.le)
  have harg : (hi - (lo + step)) / step = (hi - lo) / step - 1 := by
    field_simp
    ring
  rw [harg, Int.floor_sub_one]
  omega

/-- Defensive grid point constructed by the inner loop of buildEVGrid. -/
def mkDefensePoint (prior hpEV defEV : ℚ) : EVGridPoint :=
  { hpEV := hpEV, defEV := defEV, kind := some GridKind.defense
    priorWeight := prior, weight := prior }

/-- buildEVGrid: enumerate the (hp, def) pairs on the clamped step inside
the configured ranges, skip pairs whose combined investment exceeds the
configured maximum, assign prior weights, and normalize. -/
def buildEVGrid (expQ : ℚ → ℚ) (config : EVGridConfig) : List EVGridPoint :=
  let step := max 4 config.axisStep
  let points :=
    (axisValues config.hpRange.1 config.hpRange.2 step).flatMap (fun hpEV =>
      (axisValues config.defRange.1 config.defRange.2 step).filterMap (fun defEV =>
        match config.maxCombinedEV with
        | some limit =>
          if limit < hpEV + defEV then none
          else some (mkDefensePoint (computePriorWeight expQ config hpEV defEV) hpEV defEV)
        | none =>
          some (mkDefensePoint (computePriorWeight expQ config hpEV defEV) hpEV defEV)))
  normalizeWeights points

/-- Offensive grid point constructed by the inner loop of buildOffenseEVGrid. -/
def mkOffensePoint (atkEV spaEV : ℚ) : EVGridPoint :=
  { hpEV := 0, defEV := 0, atkEV := some atkEV, spaEV := some spaEV
    kind := some GridKind.offense, priorWeight := 1, weight := 1 }

/-- buildOffenseEVGrid: enumerate the (atk, spa) pairs on the clamped
offense step inside the configured (defaulted) ranges, skip pairs over
the combined limit, and normalize the uniform weights. -/
def buildOffenseEVGrid (config : EVGridConfig) : List EVGridPoint :=
  let atkRange := config.atkRange.getD (0, 252)
  let spaRange := config.spaRange.getD (0, 252)
  let step := max 4 (config.offenseStep.getD config.axisStep)
  let limit := config.offenseMaxCombinedEV.or config.maxCombinedEV
  let points :=
    (axisValues atkRange.1 atkRange.2 step).flatMap (fun atkEV =>
      (axisValues spaRange.1 spaRange.2 step).filterMap (fun spaEV =>
        match limit with
        | some l => if l < atkEV + spaEV then none else some (mkOffensePoint atkEV spaEV)
        | none => some (mkOffensePoint atkEV spaEV)))
  normalizeWeights points

end EVGrid

namespace Calc

/-- Battle sides, the source type BattleSide = player | opponent. -/
inductive BattleSide
  | player
  | opponent
deriving DecidableEq, Repr

/-- The opposite side, used for defaulted attack targets. -/
def BattleSide.other : BattleSide → BattleSide
  | .player => .opponent
  | .opponent => .player

/-- Per-side record, the source Record of BattleSide. -/
structure PerSide (α : Type) where
  player : α
  opponent : α
deriving DecidableEq, Repr

/-- Read the entry of one side. -/
def PerSide.get (r : PerSide α) : BattleSide → α
  | .player => r.player
  | .opponent => r.opponent

/-- Replace the entry of one side. -/
def PerSide.set (r : PerSide α) : BattleSide → α → PerSide α
  | .player, v => { r with player := v }
  | .opponent, v => { r with opponent := v }

/-- StatsTable of the calc types; the source field named def is called
defense here because def is reserved in Lean. -/
structure StatsTable where
  hp : ℚ
  atk : ℚ
  defense : ℚ
  spa : ℚ
  spd : ℚ
  spe : ℚ
deriving DecidableEq, Repr

/-- Partial StatsTable, used for stage boosts and stat-change deltas; an
absent entry is the JavaScript missing key. -/
structure PartialStats where
  hp : Option ℚ := none
  atk : Option ℚ := none
  defense : Option ℚ := none
  spa : Option ℚ := none
  spd : Option ℚ := none
  spe : Option ℚ := none
deriving DecidableEq, Repr

/-- PokemonOverrides subset stored on a PokemonState. -/
structure PokemonOverrides where
  baseStats : Option StatsTable := none
deriving DecidableEq, Repr

/-- PokemonState of the calc types.  TeraMode is carried as its literal
string ("none" / "tera" / "stellar" / "normal") because the simulator
relies on the truthiness of those strings. -/
structure PokemonState where
  id : Option String := none
  species : String
  level : ℚ
  nature : String
  ability : Option String := none
  item : Option String := none
  teraType : Option String := none
  teraMode : Option String := none
  ivs : StatsTable
  evs : StatsTable
  boosts : Option PartialStats := none
  currentHP : Option ℚ := none
  maxHP : Option ℚ := none
  types : Option (List String) := none
  status : Option String := none
  overrides : Option PokemonOverrides := none
deriving DecidableEq, Repr

/-- SideState flags consumed by the engine conversion and the branch key
(the remaining optional toggles of the source interface take part in no
modelled operation and are omitted). -/
structure SideState where
  isReflect : Option Bool := none
  isLightScreen : Option Bool := none
  isAuroraVeil : Option Bool := none
  spikes : Option ℚ := none
deriving DecidableEq, Repr

/-- FieldState fields the simulator reads, merges or serializes (weather,
terrain, trick room and the two per-side states; the other global
toggles of the source interface take part in no modelled operation). -/
structure FieldState where
  weather : Option String := none
  terrain : Option String := none
  trickRoom : Option Bool := none
  attackerSide : Option SideState := none
  defenderSide : Option SideState := none
deriving DecidableEq, Repr

/-- MoveOverrides of the calc types. -/
structure MoveOverrides where
  type : Option String := none
  power : Option ℚ := none
  category : Option String := none
deriving DecidableEq, Repr

/-- MoveConfig of the calc types. -/
structure MoveConfig where
  name : String
  type : Option String := none
  power : Option ℚ := none
  category : Option String := none
  teraMode : Option String := none
  teraType : Option String := none
  isCrit : Option Bool := none
  hits : Option ℚ := none
  priority : Option ℚ := none
  drainPercent : Option ℚ := none
  recoilPercent : Option ℚ := none
  stellarFirstUse : Option Bool := none
  overrides : Option MoveOverrides := none
deriving DecidableEq, Repr

/-- One damage roll outcome returned by the external damage calculator
(engine computeDamage); only the fields the simulator consumes are kept. -/
structure DamageRollOutcome where
  damage : ℚ
  drain : Option ℚ := none
  recoil : Option ℚ := none
deriving DecidableEq, Repr

/-- DamageComputation: the set of possible rolls for one attack.  The
opaque external Result object is not modelled. -/
structure DamageComputation where
  rolls : List DamageRollOutcome
deriving DecidableEq, Repr

end Calc

namespace Cache

open Calc

/-- DamageCacheKey of calc/cache.ts. -/
structure DamageCacheKey where
  attacker : PokemonState
  defender : PokemonState
  move : MoveConfig
  field : FieldState
  actorSide : BattleSide
deriving DecidableEq, Repr

/-- Pokemon part of the serialized key (pickPokemonSignature). -/
structure PokemonSignature where
  species : String
  level : ℚ
  ability : Option String
  item : Option String
  nature : String
  status : Option String
  teraMode : Option String
  teraType : Option String
  ivs : StatsTable
  evs : StatsTable
  boosts : Option PartialStats
  overrides : Option PokemonOverrides
deriving DecidableEq, Repr

/-- pickPokemonSignature: the subset of pokemon fields that affect the
external damage computation. -/
def pickPokemonSignature (pokemon : PokemonState) : PokemonSignature :=
  { species := pokemon.species
    level := pokemon.level
    ability := pokemon.ability
    item := pokemon.item
    nature := pokemon.nature
    status := pokemon.status
    teraMode := pokemon.teraMode
    teraType := pokemon.teraType
    ivs := pokemon.ivs
    evs := pokemon.evs
    boosts := pokemon.boosts
    overrides := pokemon.overrides }

/-- Move part of the serialized key (pickMoveSignature). -/
structure MoveSignature where
  name : String
  isCrit : Option Bool
  hits : Option ℚ
  priority : Option ℚ
  drainPercent : Option ℚ
  recoilPercent : Option ℚ
  overrides : Option MoveOverrides
  teraMode : Option String
  teraType : Option String
deriving DecidableEq, Repr

/-- pickMoveSignature of calc/cache.ts. -/
def pickMoveSignature (move : MoveConfig) : MoveSignature :=
  { name := move.name
    isCrit := move.isCrit
    hits := move.hits
    priority := move.priority
    drainPercent := move.drainPercent
    recoilPercent := move.recoilPercent
    overrides := move.overrides
    teraMode := move.teraMode
    teraType := move.teraType }

/-- Field part of the serialized key (pickFieldSignature). -/
structure FieldSignature where
  weather : Option String
  terrain : Option String
  trickRoom : Option Bool
deriving DecidableEq, Repr

/-- pickFieldSignature of calc/cache.ts. -/
def pickFieldSignature (field : FieldState) : FieldSignature :=
  { weather := field.weather
    terrain := field.terrain
    trickRoom := field.trickRoom }

/-- Serialized cache key.  The source serializes these signatures with
JSON.stringify; two keys collide exactly when their signature records
are equal, so the record itself stands for the string. -/
structure SerializedKey where
  actorSide : BattleSide
  attacker : PokemonSignature
  defender : PokemonSignature
  move : MoveSignature
  field : FieldSignature
deriving DecidableEq, Repr

/-- serializeKey of calc/cache.ts. -/
def serializeKey (key : DamageCacheKey) : SerializedKey :=
  { actorSide := key.actorSide
    attacker := pickPokemonSignature key.attacker
    defender := pickPokemonSignature key.defender
    move := pickMoveSignature key.move
    field := pickFieldSignature key.field }

/-- Default capacity of the damage cache. -/
def DEFAULT_LIMIT : ℕ := 512

/-- DamageCache state: the capacity plus the backing Map, modelled as an
association list in Map iteration (insertion) order — least recently
used first, most recently used last. -/
structure DamageCache where
  limit : ℕ
  store : List (SerializedKey × DamageComputation)
deriving DecidableEq, Repr

/-- Fresh cache with the given capacity (the constructor, whose limit
argument defaults to DEFAULT_LIMIT). -/
def mkDamageCache (limit : ℕ := DEFAULT_LIMIT) : DamageCache :=
  { limit := limit, store := [] }

/-- Map.get on the backing store: first (unique) binding of the id. -/
def lookupId (store : List (SerializedKey × DamageComputation))
    (id : SerializedKey) : Option DamageComputation :=
  match store.find? (fun entry => entry.1 = id) with
  | some entry => some entry.2
  | none => none

/-- Map.delete on the backing store: remove the (unique) binding of the
id, keeping every other binding in order. -/
def removeId (store : List (SerializedKey × DamageComputation))
    (id : SerializedKey) : List (SerializedKey × DamageComputation) :=
  match store with
  | [] => []
  | entry :: rest =>
    if entry.1 = id then rest else entry :: removeId rest id

/-- DamageCache.get: on a hit, delete and re-insert the entry so it
becomes the most recently used, and return the cached value. -/
def DamageCache.get (cache : DamageCache) (key : DamageCacheKey) :
    Option DamageComputation × DamageCache :=
  let id := serializeKey key
  match lookupId cache.store id with
  | none => (none, cache)
  | some cached =>
    (some cached, { cache with store := removeId cache.store id ++ [(id, cached)] })

/-- DamageCache.set: delete any existing binding, append the new one as
most recently used, and on overflow evict the first (least recently
used) entry. -/
def DamageCache.set (cache : DamageCache) (key : DamageCacheKey)
    (value : DamageComputation) : DamageCache :=
  let id := serializeKey key
  let store0 := if (lookupId cache.store id).isSome then removeId cache.store id
    else cache.store
  let store1 := store0 ++ [(id, value)]
  if cache.limit < store1.length then
    { cache with store := store1.drop 1 }
  else
    { cache with store := store1 }

/-- One cache operation of an access sequence. -/
inductive CacheOp
  | get (key : DamageCacheKey)
  | set (key : DamageCacheKey) (value : DamageComputation)

/-- Run a sequence of cache operations left to right. -/
def execOps (cache : DamageCache) : List CacheOp → DamageCache
  | [] => cache
  | CacheOp.get key :: rest => execOps (cache.get key).2 rest
  | CacheOp.set key value :: rest => execOps (cache.set key value) rest

end Cache

namespace Timeline

open Calc

/-- TimelineExecutionOptions of the timeline source file. -/
structure TimelineExecutionOptions where
  observationEventId : Option String := none
  observationRange : Option (ℚ × ℚ) := none
  allowRaidStellar : Option Bool := none

/-- BranchState: one hypothesized world-state with a probability mass. -/
structure BranchState where
  pokemon : PerSide PokemonState
  hp : PerSide ℚ
  maxHP : PerSide ℚ
  teraMode : PerSide String
  teraType : PerSide (Option String)
  stellarUsage : PerSide (List String)
  lastDamage : PerSide ℚ
  field : FieldState
  probability : ℚ
  terminated : Bool
deriving DecidableEq, Repr

/-- SimulationContext.  The damage computation reached through the
per-job cache plus the external computeDamage, and the dex move-type
catalog lookup, are the two opaque external collaborators; they are
carried as oracle functions (the cache is semantically transparent: a
hit returns what the same key computed before). -/
structure SimulationContext where
  pokemon : PerSide PokemonState
  field : FieldState
  computeDamage : Cache.DamageCacheKey → DamageComputation
  dexMoveType : String → Option String
  execution : TimelineExecutionOptions

/-- Attack event (snapshot-only fields such as label are not modelled). -/
structure AttackEvent where
  actionId : String := ""
  id : Option String := none
  actor : BattleSide
  move : MoveConfig
  target : Option BattleSide := none
  timing : Option String := none
  relatedActionId : Option String := none

/-- Stat change event. -/
structure StatChangeEvent where
  actionId : String := ""
  id : Option String := none
  actor : Option BattleSide := none
  stages : PartialStats := {}
  timing : Option String := none
  relatedActionId : Option String := none

/-- HP adjustment event. -/
structure HpAdjustmentEvent where
  actionId : String := ""
  id : Option String := none
  actor : BattleSide
  target : Option BattleSide := none
  amount : ℚ := 0
  isDamage : Option Bool := none
  mode : Option String := none
  fractionNumerator : Option ℚ := none
  fractionDenominator : Option ℚ := none
  timing : Option String := none
  relatedActionId : Option String := none

/-- Healing event amount union: a number, the literal "fraction", or a
min/max range. -/
inductive HealAmount
  | num (value : ℚ)
  | fraction
  | range (min max : ℚ)

/-- Healing event. -/
structure HealingEvent where
  actionId : String := ""
  id : Option String := none
  actor : Option BattleSide := none
  amount : HealAmount := .num 0
  fraction : Option ℚ := none
  fractionNumerator : Option ℚ := none
  fractionDenominator : Option ℚ := none
  timing : Option String := none
  relatedActionId : Option String := none

/-- Status event. -/
structure StatusEvent where
  actionId : String := ""
  id : Option String := none
  actor : Option BattleSide := none
  status : Option String := none
  clears : Option Bool := none
  timing : Option String := none
  relatedActionId : Option String := none

/-- Field toggle event (the merge consumes weather, terrain and trick
room). -/
structure FieldToggleEvent where
  actionId : String := ""
  id : Option String := none
  actor : Option BattleSide := none
  field : Option FieldState := none
  timing : Option String := none
  relatedActionId : Option String := none

/-- Switch event payload consumed by applySwitchState. -/
structure SwitchEvent where
  actionId : String := ""
  id : Option String := none
  actor : Option BattleSide := none
  targetSpecies : Option String := none
  setHpPercent : Option ℚ := none
  ability : Option String := none
  item : Option String := none
  timing : Option String := none
  relatedActionId : Option String := none

/-- Tagged union of the auxiliary battle events. -/
inductive BattleEvent
  | attack (event : AttackEvent)
  | statChange (event : StatChangeEvent)
  | hpAdjustment (event : HpAdjustmentEvent)
  | healing (event : HealingEvent)
  | status (event : StatusEvent)
  | fieldToggle (event : FieldToggleEvent)
  | switch (event : SwitchEvent)
  | abilityActivation (actionId : String)

/-- Scripted per-turn action. -/
inductive BattleAction
  | move (id : String) (actor : BattleSide) (move : MoveConfig)
      (target : Option BattleSide) (teraMode : Option String) (teraType : Option String)
  | switch (id : String) (actor : BattleSide) (targetSpecies : Option String)
      (setHpPercent : Option ℚ) (ability : Option String) (item : Option String)
  | pass (id : String) (actor : BattleSide)

/-- Result of processing one action or event over the branch set. -/
structure EventResult where
  branches : List BranchState
  observationContribution : ℚ
  damageRolls : Option (List ℚ) := none

/-- Truthiness of an optional string (empty strings are falsy). -/
def strTruthy : Option String → Option String
  | some s => if s = "" then none else some s
  | none => none

/-- resolveFractionValue of the timeline source file. -/
def resolveFractionValue (numerator denominator fallback : Option ℚ) : Option ℚ :=
  match fallback with
  | some f => some f
  | none =>
    match denominator with
    | some d => if d = 0 then none else some (numerator.getD 1 / d)
    | none => none

/-- clampStage: clamp a boost stage to the interval from -6 to 6. -/
def clampStage (value : ℚ) : ℚ :=
  max (-6) (min 6 value)

/-- resolveMoveType: a truthy override type wins; Tera Blast with a
truthy tera type uses it; otherwise the dex catalog type, defaulting to
Normal. -/
def resolveMoveType (dexMoveType : String → Option String) (move : MoveConfig)
    (attacker : PokemonState) : String :=
  match strTruthy (move.overrides.bind (fun o => o.type)) with
  | some t => t
  | none =>
    let tera := move.teraType.or attacker.teraType
    if move.name = "Tera Blast" ∧ (strTruthy tera).isSome then tera.getD "Normal"
    else (dexMoveType move.name).getD "Normal"

/-- Set.add on the stellar-usage set (insertion order preserved). -/
def addUsage (used : List String) (t : String) : List String :=
  if used.contains t then used else used ++ [t]

/-- prepareMoveForBranch: default the move tera mode/type from the
branch, and derive the stellar first-use flag (granted on every use when
raid stellar is allowed, otherwise only for types not yet used). -/
def prepareMoveForBranch (move : MoveConfig) (attacker : PokemonState)
    (branch : BranchState) (side : BattleSide)
    (execution : TimelineExecutionOptions)
    (dexMoveType : String → Option String) : MoveConfig :=
  let c1 := { move with teraMode := move.teraMode.or (some (branch.teraMode.get side)) }
  let c2 := { c1 with
    teraType := c1.teraType.or ((branch.teraType.get side).or attacker.teraType) }
  if c2.teraMode = some "stellar" then
    if execution.allowRaidStellar = some true then
      { c2 with stellarFirstUse := some true }
    else
      let t := resolveMoveType dexMoveType c2 attacker
      { c2 with stellarFirstUse := some (!(branch.stellarUsage.get side).contains t) }
  else c2

/-- Attacker and defender snapshots plus the prepared move, as built at
the head of the per-branch attack loop. -/
def attackSetup (ctx : SimulationContext) (event : AttackEvent)
    (target : BattleSide) (branch : BranchState) :
    PokemonState × PokemonState × MoveConfig :=
  let attacker := { branch.pokemon.get event.actor with
    currentHP := some (branch.hp.get event.actor)
    maxHP := some (branch.maxHP.get event.actor) }
  let defender := { branch.pokemon.get target with
    currentHP := some (branch.hp.get target)
    maxHP := some (branch.maxHP.get target) }
  let moveForCalc :=
    prepareMoveForBranch event.move attacker branch event.actor ctx.execution ctx.dexMoveType
  (attacker, defender, moveForCalc)

/-- Damage application of one roll: set the child's probability mass,
subtract the clamped damage from the target and record it as last
damage. -/
def applyRollDamage (tgt : BattleSide) (rollProbability : ℚ)
    (roll : DamageRollOutcome) (branch : BranchState) : BranchState :=
  let hpTarget := branch.hp.get tgt
  let damage := min roll.damage hpTarget
  let hpTarget2 := max 0 (hpTarget - damage)
  { branch with
    probability := rollProbability
    hp := branch.hp.set tgt hpTarget2
    lastDamage := branch.lastDamage.set tgt damage
    pokemon := branch.pokemon.set tgt
      { branch.pokemon.get tgt with currentHP := some hpTarget2 } }

/-- Drain recovery for the acting side (skipped when absent or zero). -/
def applyDrain (actor : BattleSide) (roll : DamageRollOutcome)
    (b : BranchState) : BranchState :=
  match roll.drain with
  | some d =>
    if d = 0 then b
    else
      let hpActor := min (b.maxHP.get actor) (b.hp.get actor + d)
      { b with
        hp := b.hp.set actor hpActor
        pokemon := b.pokemon.set actor
          { b.pokemon.get actor with currentHP := some hpActor } }
  | none => b

/-- Recoil damage for the acting side (skipped when absent or zero). -/
def applyRecoil (actor : BattleSide) (roll : DamageRollOutcome)
    (b : BranchState) : BranchState :=
  match roll.recoil with
  | some r =>
    if r = 0 then b
    else
      let hpActor := max 0 (b.hp.get actor - r)
      { b with
        hp := b.hp.set actor hpActor
        pokemon := b.pokemon.set actor
          { b.pokemon.get actor with currentHP := some hpActor } }
  | none => b

/-- Transformation flip: when the move carries a truthy tera mode that
differs from the parent branch's current mode for the acting side, set
the new mode and type. -/
def applyTeraFlip (actor : BattleSide) (parentTeraMode : String)
    (attacker : PokemonState) (moveForCalc : MoveConfig) (b : BranchState) :
    BranchState :=
  let teraFlip : Bool := match moveForCalc.teraMode with
    | some m => decide (m ≠ "") && decide (m ≠ parentTeraMode)
    | none => false
  if teraFlip then
    { b with
      teraMode := b.teraMode.set actor (moveForCalc.teraMode.getD "")
      teraType := b.teraType.set actor (moveForCalc.teraType.or attacker.teraType)
      pokemon := b.pokemon.set actor
        { b.pokemon.get actor with
          teraMode := moveForCalc.teraMode
          teraType := moveForCalc.teraType.or attacker.teraType } }
  else b

/-- Stellar first-use tracking: outside the unlimited raid mode, record
the move's type as used for the acting side. -/
def applyStellarTrack (ctx : SimulationContext) (actor : BattleSide)
    (moveForCalc : MoveConfig) (moveType : String) (b : BranchState) :
    BranchState :=
  if moveForCalc.teraMode = some "stellar" ∧
      ctx.execution.allowRaidStellar ≠ some true then
    { b with
      stellarUsage := b.stellarUsage.set actor
        (addUsage (b.stellarUsage.get actor) moveType) }
  else b

/-- Attack termination: the child terminates when the target's or the
acting side's HP has reached 0. -/
def applyAttackTermination (actor tgt : BattleSide) (b : BranchState) :
    BranchState :=
  if b.hp.get tgt ≤ 0 ∨ b.hp.get actor ≤ 0 then { b with terminated := true }
  else b

/-- Child branch produced by one damage roll: apply clamped damage, then
drain and recoil for the acting side, flip the transformation state when
the move carries a new tera mode, track stellar first-use types, and
terminate when either side reached 0 HP (the stages mirror the source
loop body in order). -/
def attackChild (ctx : SimulationContext) (event : AttackEvent)
    (tgt : BattleSide) (branch : BranchState) (attacker : PokemonState)
    (moveForCalc : MoveConfig) (moveType : String) (rollProbability : ℚ)
    (roll : DamageRollOutcome) : BranchState :=
  applyAttackTermination event.actor tgt
    (applyStellarTrack ctx event.actor moveForCalc moveType
      (applyTeraFlip event.actor (branch.teraMode.get event.actor) attacker moveForCalc
        (applyRecoil event.actor roll
          (applyDrain event.actor roll
            (applyRollDamage tgt rollProbability roll branch)))))

/-- Observation contribution of one roll: when this attack is the
designated observation event and the inflicted damage fraction of the
target's max HP lies inside the caller-supplied range, the roll's mass
counts. -/
def rollObservation (ctx : SimulationContext) (event : AttackEvent)
    (target : BattleSide) (branch : BranchState) (rollProbability : ℚ)
    (roll : DamageRollOutcome) : ℚ :=
  let damage := min roll.damage (branch.hp.get target)
  if event.id = ctx.execution.observationEventId then
    match ctx.execution.observationRange with
    | some range =>
      let percent := damage / branch.maxHP.get target
      if range.1 ≤ percent ∧ percent ≤ range.2 then rollProbability else 0
    | none => 0
  else 0

/-- Per-branch traversal of processAttack, threading the first collected
roll list (the damageRolls de-duplication) through the loop. -/
def processAttackGo (ctx : SimulationContext) (event : AttackEvent)
    (target : BattleSide) :
    List BranchState → List ℚ → List BranchState × ℚ × List ℚ
  | [], accRolls => ([], 0, accRolls)
  | branch :: rest, accRolls =>
    if branch.terminated then
      let result := processAttackGo ctx event target rest accRolls
      (branch :: result.1, result.2.1, result.2.2)
    else if branch.hp.get event.actor ≤ 0 ∨ branch.hp.get target ≤ 0 then
      let result := processAttackGo ctx event target rest accRolls
      ({ branch with terminated := true } :: result.1, result.2.1, result.2.2)
    else
      let setup := attackSetup ctx event target branch
      let attacker := setup.1
      let defender := setup.2.1
      let moveForCalc := setup.2.2
      let computation := ctx.computeDamage
        { attacker := attacker, defender := defender, move := moveForCalc
          field := branch.field, actorSide := event.actor }
      let rolls := computation.rolls
      let rollProbability := branch.probability / rolls.length
      let moveType := resolveMoveType ctx.dexMoveType moveForCalc attacker
      let accRolls2 := if accRolls.isEmpty then rolls.map (fun roll => roll.damage)
        else accRolls
      let children := rolls.map
        (attackChild ctx event target branch attacker moveForCalc moveType rollProbability)
      let obsHere :=
        (rolls.map (rollObservation ctx event target branch rollProbability)).sum
      let result := processAttackGo ctx event target rest accRolls2
      (children ++ result.1, obsHere + result.2.1, result.2.2)

/-- processAttack over the whole branch set. -/
def processAttack (event : AttackEvent) (branches : List BranchState)
    (ctx : SimulationContext) : EventResult :=
  let target := event.target.getD event.actor.other
  let result := processAttackGo ctx event target branches []
  { branches := result.1
    observationContribution := result.2.1
    damageRolls := if result.2.2.isEmpty then none else some result.2.2 }

/-- One stat-stage update: skip absent deltas, clamp the new stage, and
drop stages that return to zero. -/
def stageStep (current delta : Option ℚ) : Option ℚ :=
  match delta with
  | none => current
  | some d =>
    let next := clampStage (current.getD 0 + d)
    if next = 0 then none else some next

/-- Apply a stat-change stage table to a boost table. -/
def statChangeBoosts (boosts stages : PartialStats) : PartialStats :=
  { hp := stageStep boosts.hp stages.hp
    atk := stageStep boosts.atk stages.atk
    defense := stageStep boosts.defense stages.defense
    spa := stageStep boosts.spa stages.spa
    spd := stageStep boosts.spd stages.spd
    spe := stageStep boosts.spe stages.spe }

/-- processStatChange: update the acting side's boosts of every live
branch; terminated branches pass through unmodified. -/
def processStatChange (event : StatChangeEvent) (branches : List BranchState) :
    List BranchState :=
  match event.actor with
  | none => branches
  | some side =>
    branches.map (fun branch =>
      if branch.terminated then branch
      else
        let boosts := (branch.pokemon.get side).boosts.getD {}
        { branch with
          pokemon := branch.pokemon.set side
            { branch.pokemon.get side with
              boosts := some (statChangeBoosts boosts event.stages) } })

/-- Resolved amount of an HP adjustment before the damage/heal split. -/
def hpAdjustmentAmount (event : HpAdjustmentEvent) (maxHP lastDamage : ℚ) : ℚ :=
  let fraction :=
    resolveFractionValue event.fractionNumerator event.fractionDenominator none
  match event.mode with
  | some "percent-max" => (⌊maxHP * event.amount / 100⌋ : ℤ)
  | some "percent-last-damage" => (⌊lastDamage * event.amount / 100⌋ : ℤ)
  | some "fraction-max" =>
    match fraction with
    | some f => (⌊maxHP * max 0 f⌋ : ℤ)
    | none => event.amount
  | some "fraction-last-damage" =>
    match fraction with
    | some f => (⌊lastDamage * max 0 f⌋ : ℤ)
    | none => event.amount
  | _ => event.amount

/-- processHpAdjustment on one live branch. -/
def hpAdjustmentBranch (event : HpAdjustmentEvent) (branch : BranchState) :
    BranchState :=
  let targetSide := event.target.getD event.actor
  let maxHP := branch.maxHP.get targetSide
  let lastDamage := branch.lastDamage.get targetSide
  let amount := hpAdjustmentAmount event maxHP lastDamage
  if event.isDamage = some true then
    let damage := max 0 (min amount (branch.hp.get targetSide))
    let hp2 := branch.hp.get targetSide - damage
    let b1 := { branch with
      hp := branch.hp.set targetSide hp2
      lastDamage := branch.lastDamage.set targetSide damage
      pokemon := branch.pokemon.set targetSide
        { branch.pokemon.get targetSide with currentHP := some hp2 } }
    if hp2 ≤ 0 then { b1 with terminated := true } else b1
  else
    let heal := |amount|
    let hp2 := min (branch.maxHP.get targetSide) (branch.hp.get targetSide + heal)
    { branch with
      hp := branch.hp.set targetSide hp2
      pokemon := branch.pokemon.set targetSide
        { branch.pokemon.get targetSide with currentHP := some hp2 } }

/-- processHpAdjustment: apply the adjustment to every live branch. -/
def processHpAdjustment (event : HpAdjustmentEvent)
    (branches : List BranchState) : List BranchState :=
  branches.map (fun branch =>
    if branch.terminated then branch else hpAdjustmentBranch event branch)

/-- computeHealingAmount of the timeline source file. -/
def computeHealingAmount (event : HealingEvent) (maxHP : ℚ) : ℚ :=
  match event.amount with
  | .fraction =>
    let ratio := (resolveFractionValue event.fractionNumerator
      event.fractionDenominator event.fraction).getD 0
    max (⌊maxHP * max 0 ratio⌋ : ℤ) 1
  | .num n => n
  | .range lo _ => lo

/-- processHealingEvent: heal the acting side of every live branch,
clamped to max HP. -/
def processHealingEvent (event : HealingEvent) (branches : List BranchState) :
    List BranchState :=
  match event.actor with
  | none => branches
  | some side =>
    branches.map (fun branch =>
      if branch.terminated then branch
      else
        let amount := computeHealingAmount event (branch.maxHP.get side)
        let hp2 := min (branch.maxHP.get side) (branch.hp.get side + amount)
        { branch with
          hp := branch.hp.set side hp2
          pokemon := branch.pokemon.set side
            { branch.pokemon.get side with currentHP := some hp2 } })

/-- Status replacement applied to one branch by processStatusEvent. -/
def statusBranch (event : StatusEvent) (side : BattleSide)
    (branch : BranchState) : BranchState :=
  let nextStatus := if event.clears = some true then none else event.status
  { branch with
    pokemon := branch.pokemon.set side
      { branch.pokemon.get side with status := nextStatus } }

/-- processStatusEvent: replace the acting side's status on every branch
(note: the source loop has no terminated-branch skip). -/
def processStatusEvent (event : StatusEvent) (branches : List BranchState) :
    List BranchState :=
  match event.actor with
  | none => branches
  | some side => branches.map (statusBranch event side)

/-- applySwitchState / processSwitchState: build the switched-in pokemon
and the new HP of the side. -/
def processSwitchState (base : PokemonState) (event : SwitchEvent)
    (maxHP : ℚ) : PokemonState × ℚ :=
  let updated := { base with
    species := event.targetSpecies.getD base.species
    ability := event.ability.or base.ability
    item := event.item.or base.item
    status := none
    boosts := none
    teraMode := some "none"
    teraType := none }
  let hp2 := match event.setHpPercent with
    | some shp =>
      let percent := max 0 (min 100 shp)
      let hp := ((round (maxHP * percent / 100) : ℤ) : ℚ)
      max 0 (min maxHP hp)
    | none => maxHP
  ({ updated with maxHP := some maxHP, currentHP := some hp2 }, hp2)

/-- processSwitchEvent: swap in the target species on every live branch,
resetting transformation state, boosts, status and last damage. -/
def processSwitchEvent (event : SwitchEvent) (branches : List BranchState) :
    List BranchState :=
  match event.actor with
  | none => branches
  | some side =>
    branches.map (fun branch =>
      if branch.terminated then branch
      else
        let result := processSwitchState (branch.pokemon.get side) event
          (branch.maxHP.get side)
        { branch with
          pokemon := branch.pokemon.set side result.1
          hp := branch.hp.set side result.2
          teraMode := branch.teraMode.set side "none"
          teraType := branch.teraType.set side none
          lastDamage := branch.lastDamage.set side 0 })

/-- mergeFieldStates: overlay defined weather, terrain and trick-room
updates onto the base field. -/
def mergeFieldStates (base updates : FieldState) : FieldState :=
  let m1 := match updates.weather with
    | some w => { base with weather := some w }
    | none => base
  let m2 := match updates.terrain with
    | some t => { m1 with terrain := some t }
    | none => m1
  match updates.trickRoom with
  | some tr => { m2 with trickRoom := some tr }
  | none => m2

/-- processFieldToggle: merge the event's field updates into every branch
(note: the source loop has no terminated-branch skip). -/
def processFieldToggle (event : FieldToggleEvent)
    (branches : List BranchState) : List BranchState :=
  branches.map (fun branch =>
    { branch with field := mergeFieldStates branch.field (event.field.getD {}) })

/-- processEvent: dispatch an auxiliary event to its processor. -/
def processEvent (event : BattleEvent) (branches : List BranchState)
    (ctx : SimulationContext) : EventResult :=
  match event with
  | .attack e => processAttack e branches ctx
  | .statChange e =>
    { branches := processStatChange e branches, observationContribution := 0 }
  | .hpAdjustment e =>
    { branches := processHpAdjustment e branches, observationContribution := 0 }
  | .healing e =>
    { branches := processHealingEvent e branches, observationContribution := 0 }
  | .switch e =>
    { branches := processSwitchEvent e branches, observationContribution := 0 }
  | .fieldToggle e =>
    { branches := processFieldToggle e branches, observationContribution := 0 }
  | .status e =>
    { branches := processStatusEvent e branches, observationContribution := 0 }
  | .abilityActivation _ =>
    { branches := branches, observationContribution := 0 }

/-- processAction: a move action becomes an attack event (optionally
overriding the move's tera mode/type), a switch action becomes a switch
event, and a pass leaves the branches unchanged. -/
def processAction (action : BattleAction) (branches : List BranchState)
    (ctx : SimulationContext) : EventResult :=
  match action with
  | .move id actor mv target teraMode teraType =>
    let mv2 := match teraMode with
      | some tm => { mv with teraMode := some tm, teraType := teraType.or mv.teraType }
      | none => mv
    let attackEvent : AttackEvent :=
      { actionId := id, id := some id, actor := actor, move := mv2
        target := some (target.getD actor.other), timing := some "action" }
    processAttack attackEvent branches ctx
  | .switch id actor targetSpecies setHpPercent ability item =>
    let switchEvent : SwitchEvent :=
      { actionId := id, id := some id, actor := some actor
        targetSpecies := targetSpecies, setHpPercent := setHpPercent
        ability := ability, item := item, timing := some "action" }
    { branches := processSwitchEvent switchEvent branches
      observationContribution := 0 }
  | .pass _ _ =>
    { branches := branches, observationContribution := 0 }

/-- applyLeftoversRecovery: every live branch holding Leftovers on a
side with positive, below-max HP recovers floor(maxHP/16), at least 1,
clamped to max HP. -/
def leftoversSide (branch : BranchState) (side : BattleSide) : BranchState :=
  let pokemon := branch.pokemon.get side
  if pokemon.item = some "Leftovers" ∧ 0 < branch.hp.get side ∧
      branch.hp.get side < branch.maxHP.get side then
    let recovery := max 1 ((⌊branch.maxHP.get side / 16⌋ : ℤ) : ℚ)
    let hp2 := min (branch.maxHP.get side) (branch.hp.get side + recovery)
    { branch with
      hp := branch.hp.set side hp2
      pokemon := branch.pokemon.set side
        { branch.pokemon.get side with currentHP := some hp2 } }
  else branch

/-- applyLeftoversRecovery over the branch set. -/
def applyLeftoversRecovery (branches : List BranchState) : List BranchState :=
  branches.map (fun branch =>
    if branch.terminated then branch
    else leftoversSide (leftoversSide branch .player) .opponent)

/-- Canonical branch key of buildBranchKey.  The source joins the listed
fields into a delimited string; equality of this record models equality
of that string. -/
structure BranchKey where
  hpPlayer : ℚ
  hpOpponent : ℚ
  teraModePlayer : String
  teraModeOpponent : String
  teraTypePlayer : String
  teraTypeOpponent : String
  abilityPlayer : String
  abilityOpponent : String
  itemPlayer : String
  itemOpponent : String
  statusPlayer : String
  statusOpponent : String
  boostsPlayer : List (String × ℚ)
  boostsOpponent : List (String × ℚ)
  stellarPlayer : List String
  stellarOpponent : List String
  fieldSignature : FieldState
  lastDamagePlayer : ℚ
  lastDamageOpponent : ℚ
  terminated : Bool
deriving DecidableEq, Repr

/-- serializeBoosts: defined non-zero stages in alphabetical stat order
(atk, def, hp, spa, spd, spe — the localeCompare order of the keys). -/
def serializeBoosts (boosts : PartialStats) : List (String × ℚ) :=
  ([("atk", boosts.atk), ("def", boosts.defense), ("hp", boosts.hp),
    ("spa", boosts.spa), ("spd", boosts.spd), ("spe", boosts.spe)]).filterMap
    (fun entry => match entry.2 with
      | some v => if v = 0 then none else some (entry.1, v)
      | none => none)

/-- buildBranchKey of the timeline source file. -/
def buildBranchKey (branch : BranchState) : BranchKey :=
  { hpPlayer := branch.hp.player
    hpOpponent := branch.hp.opponent
    teraModePlayer := branch.teraMode.player
    teraModeOpponent := branch.teraMode.opponent
    teraTypePlayer := branch.teraType.player.getD ""
    teraTypeOpponent := branch.teraType.opponent.getD ""
    abilityPlayer := branch.pokemon.player.ability.getD ""
    abilityOpponent := branch.pokemon.opponent.ability.getD ""
    itemPlayer := branch.pokemon.player.item.getD ""
    itemOpponent := branch.pokemon.opponent.item.getD ""
    statusPlayer := branch.pokemon.player.status.getD ""
    statusOpponent := branch.pokemon.opponent.status.getD ""
    boostsPlayer := serializeBoosts (branch.pokemon.player.boosts.getD {})
    boostsOpponent := serializeBoosts (branch.pokemon.opponent.boosts.getD {})
    stellarPlayer := branch.stellarUsage.player.mergeSort (fun a b => a ≤ b)
    stellarOpponent := branch.stellarUsage.opponent.mergeSort (fun a b => a ≤ b)
    fieldSignature := branch.field
    lastDamagePlayer := branch.lastDamage.player
    lastDamageOpponent := branch.lastDamage.opponent
    terminated := branch.terminated }

/-- Add probability mass to the (first, unique) entry with the key. -/
def bumpFirst : List (BranchKey × BranchState) → BranchKey → ℚ →
    List (BranchKey × BranchState)
  | [], _, _ => []
  | entry :: rest, key, p =>
    if entry.1 = key then
      (entry.1, { entry.2 with probability := entry.2.probability + p }) :: rest
    else entry :: bumpFirst rest key p

/-- One iteration of the mergeBranches loop over the keyed accumulator
(the Map from canonical key to representative branch, in insertion
order). -/
def mergeStep (acc : List (BranchKey × BranchState)) (branch : BranchState) :
    List (BranchKey × BranchState) :=
  let key := buildBranchKey branch
  if (acc.find? (fun entry => entry.1 = key)).isSome then
    bumpFirst acc key branch.probability
  else acc ++ [(key, branch)]

/-- mergeBranches: collapse branches with equal canonical keys, summing
their probability mass (first occurrence keeps its position and state). -/
def mergeBranches (branches : List BranchState) : List BranchState :=
  (branches.foldl mergeStep []).map (fun entry => entry.2)

/-- createInitialBranch from the two starting combatants and the field. -/
def createInitialBranch (pokemon : PerSide PokemonState) (field : FieldState) :
    BranchState :=
  let player := pokemon.player
  let opponent := pokemon.opponent
  let playerMax := (player.maxHP.or player.currentHP).getD 1
  let opponentMax := (opponent.maxHP.or opponent.currentHP).getD 1
  let hpPlayer := player.currentHP.getD playerMax
  let hpOpponent := opponent.currentHP.getD opponentMax
  { pokemon :=
      { player := { player with currentHP := some hpPlayer, maxHP := some playerMax }
        opponent :=
          { opponent with currentHP := some hpOpponent, maxHP := some opponentMax } }
    hp := { player := hpPlayer, opponent := hpOpponent }
    maxHP := { player := playerMax, opponent := opponentMax }
    teraMode := { player := player.teraMode.getD "none"
                  opponent := opponent.teraMode.getD "none" }
    teraType := { player := player.teraType, opponent := opponent.teraType }
    stellarUsage := { player := [], opponent := [] }
    lastDamage := { player := 0, opponent := 0 }
    field := field
    probability := 1
    terminated := false }

/-- Total probability mass of a branch set. -/
def sumProb (branches : List BranchState) : ℚ :=
  (branches.map (fun branch => branch.probability)).sum

/-- Branch sets reachable during simulateTimeline: the initial singleton,
then any interleaving of merged event steps, merged action steps and
end-of-turn leftovers recovery (a superset of the sequences the driver
loop actually schedules, covering every point of the simulation). -/
inductive Reachable (ctx : SimulationContext) : List BranchState → Prop
  | initial : Reachable ctx [createInitialBranch ctx.pokemon ctx.field]
  | eventStep (event : BattleEvent) {bs : List BranchState} :
      Reachable ctx bs →
      Reachable ctx (mergeBranches (processEvent event bs ctx).branches)
  | actionStep (action : BattleAction) {bs : List BranchState} :
      Reachable ctx bs →
      Reachable ctx (mergeBranches (processAction action bs ctx).branches)
  | leftoversStep {bs : List BranchState} :
      Reachable ctx bs → Reachable ctx (applyLeftoversRecovery bs)

end Timeline

namespace Worker

/-- Worker responses at the message-protocol level.  The timeout error
string of notifyTimeout is represented by its numeric payload: the
processed and total grid point counts it formats into the message. -/
inductive WorkerMsg
  | progress (requestId : String) (processed total : ℕ) (phase : String)
  | complete (requestId : String)
  | errorTimeout (requestId : String) (processed total : ℕ)
  | cancelled (requestId : String)
deriving DecidableEq, Repr

/-- Outcome of one evaluateGridPoints call: completed normally (the
caller receives a result) or stopped early returning null. -/
inductive EvalOutcome
  | completed
  | stoppedInactive
  | stoppedCancelled
  | stoppedTimeout (processed : ℕ)
deriving DecidableEq, Repr

/-- Environment of one grid evaluation: the grid size, the batch size,
the deadline and, as oracles indexed by the loop counter, the
cancellation flag and wall clock the loop observes (the flag can only
change at the cooperative yield points between iterations). -/
structure WorkerEnv where
  activeMatchesAt : ℕ → Bool
  cancelledAt : ℕ → Bool
  nowAfter : ℕ → ℚ
  timeoutAt : ℚ
  batchSize : ℕ
  total : ℕ

/-- The grid-evaluation loop of evaluateGridPoints from iteration index
on: check the active job and the cancellation flag, process the point,
post batch-boundary progress, then check the wall-clock deadline. -/
def evalLoop (requestId : String) (env : WorkerEnv) (index : ℕ) :
    List WorkerMsg × EvalOutcome :=
  if index < env.total then
    if !env.activeMatchesAt index then ([], .stoppedInactive)
    else if env.cancelledAt index then
      ([WorkerMsg.cancelled requestId], .stoppedCancelled)
    else
      let processed := index + 1
      let msgs1 := if processed % env.batchSize = 0 ∨ processed = env.total then
          [WorkerMsg.progress requestId processed env.total
            (if processed = env.total then "finalizing" else "evaluating")]
        else []
      if env.timeoutAt < env.nowAfter index then
        (msgs1 ++ [WorkerMsg.errorTimeout requestId processed env.total],
          .stoppedTimeout processed)
      else
        let rest := evalLoop requestId env (index + 1)
        (msgs1 ++ rest.1, rest.2)
  else ([], .completed)
termination_by env.total - index

/-- The grid path of evaluateGridPoints: the initial processing progress
message followed by the loop (the observation reweighting after a
completed loop posts no messages). -/
def evaluateGridPointsMsgs (requestId : String) (env : WorkerEnv) :
    List WorkerMsg × EvalOutcome :=
  let run := evalLoop requestId env 0
  (WorkerMsg.progress requestId 0 env.total "processing" :: run.1, run.2)

/-- Analysis toggles of the job's grid configuration. -/
structure JobConfig where
  enabled : Bool
  enableKO : Bool
  enableSurvival : Bool
deriving DecidableEq, Repr

/-- needDefenseGrid of runSimulation. -/
def needDefenseGrid (cfg : JobConfig) : Bool :=
  cfg.enabled && (!cfg.enableKO || cfg.enableSurvival)

/-- needOffenseGrid of runSimulation. -/
def needOffenseGrid (cfg : JobConfig) : Bool :=
  cfg.enabled && cfg.enableKO

/-- Offense stage and completion of runSimulation, entered once the
defense stage (when any) has completed. -/
def runOffenseStage (requestId : String) (cfg : JobConfig) (envOff : WorkerEnv) :
    List WorkerMsg :=
  if needOffenseGrid cfg then
    let orun := evaluateGridPointsMsgs requestId envOff
    if orun.2 = .completed then orun.1 ++ [WorkerMsg.complete requestId]
    else orun.1
  else [WorkerMsg.complete requestId]

/-- Message trace of one runSimulation call: the initializing progress
message, the deterministic short-circuit when no grid is requested,
otherwise the defense evaluation (stopping without a complete response
when it returns null), then the offense evaluation (likewise), then
exactly one complete response. -/
def runSimulationMsgs (requestId : String) (cfg : JobConfig)
    (envDef envOff : WorkerEnv) : List WorkerMsg :=
  let init := WorkerMsg.progress requestId 0 0 "initializing"
  if !cfg.enabled && !needOffenseGrid cfg then
    [init, WorkerMsg.complete requestId]
  else if needDefenseGrid cfg then
    let run := evaluateGridPointsMsgs requestId envDef
    if run.2 = .completed then init :: run.1 ++ runOffenseStage requestId cfg envOff
    else init :: run.1
  else init :: runOffenseStage requestId cfg envOff

end Worker

namespace Fixtures

open Calc

/-- Concrete stats table used by the witness scenarios. -/
def sampleStats : StatsTable :=
  { hp := 31, atk := 31, defense := 31, spa := 31, spd := 31, spe := 31 }

/-- Concrete combatant used by the witness scenarios. -/
def samplePokemon : PokemonState :=
  { species := "Pikachu", level := 50, nature := "Hardy"
    ivs := sampleStats, evs := sampleStats
    currentHP := some 100, maxHP := some 100 }

/-- Concrete move used by the witness scenarios. -/
def sampleMove : MoveConfig := { name := "Tackle" }

/-- Empty field used by the witness scenarios. -/
def sampleField : FieldState := {}

/-- Concrete damage cache key. -/
def sampleKey : Cache.DamageCacheKey :=
  { attacker := samplePokemon, defender := samplePokemon, move := sampleMove
    field := sampleField, actorSide := .player }

/-- Second cache key with a different attacker species (distinct
serialized key). -/
def sampleKey2 : Cache.DamageCacheKey :=
  { sampleKey with attacker := { samplePokemon with species := "Eevee" } }

/-- Concrete damage computation with one 40-damage roll. -/
def sampleComputation : DamageComputation :=
  { rolls := [{ damage := 40 }] }

/-- Concrete damage computation with two rolls. -/
def sampleComputation2 : DamageComputation :=
  { rolls := [{ damage := 40 }, { damage := 120 }] }

/-- Concrete simulation context whose damage oracle always returns the
single-roll computation. -/
def sampleContext : Timeline.SimulationContext :=
  { pokemon := { player := samplePokemon, opponent := samplePokemon }
    field := sampleField
    computeDamage := fun _ => sampleComputation
    dexMoveType := fun _ => none
    execution := {} }

/-- Concrete simulation context whose damage oracle always returns the
two-roll computation. -/
def sampleContext2 : Timeline.SimulationContext :=
  { sampleContext with computeDamage := fun _ => sampleComputation2 }

/-- Concrete starting branch of the witness scenarios. -/
def sampleBranch : Timeline.BranchState :=
  Timeline.createInitialBranch sampleContext.pokemon sampleField

/-- Concrete attack event by the player with the sample move. -/
def sampleAttack : Timeline.AttackEvent :=
  { actionId := "a1", id := some "a1", actor := .player, move := sampleMove }

/-- Concrete worker environment that observes a cancellation at the
first grid point. -/
def cancelEnv : Worker.WorkerEnv :=
  { activeMatchesAt := fun _ => true
    cancelledAt := fun _ => true
    nowAfter := fun _ => 0
    timeoutAt := 1000
    batchSize := 100
    total := 1 }

/-- Concrete worker job configuration requesting the defensive grid. -/
def sampleJobConfig : Worker.JobConfig :=
  { enabled := true, enableKO := false, enableSurvival := true }

/-- Concrete degenerate grid configuration (single point at the origin). -/
def sampleGridConfig : EVGrid.EVGridConfig :=
  { hpRange := (0, 0), defRange := (0, 0), axisStep := 4
    prior := EVGrid.PriorConfig.str "uniform" }

end Fixtures

namespace Cache

open Calc

theorem lookupId_cons (e : SerializedKey × DamageComputation)
    (rest : List (SerializedKey × DamageComputation)) (id : SerializedKey) :
    lookupId (e :: rest) id =
      if e.1 = id then some e.2 else lookupId rest id := by
  by_cases h : e.1 = id <;> simp [lookupId, List.find?_cons, h]

theorem removeId_cons (e : SerializedKey × DamageComputation)
    (rest : List (SerializedKey × DamageComputation)) (id : SerializedKey) :
    removeId (e :: rest) id =
      if e.1 = id then rest else e :: removeId rest id := by
  rfl

theorem removeId_length_le
    (store : List (SerializedKey × DamageComputation)) (id : SerializedKey) :
    (removeId store id).length ≤ store.length := by
  induction store with
  | nil => simp [removeId]
  | cons e rest ih =>
    rw [removeId_cons]
    by_cases h : e.1 = id
    · simp only [if_pos h, List.length_cons]
      omega
    · simp only [if_neg h, List.length_cons]
      omega

theorem removeId_length_of_lookup
    (store : List (SerializedKey × DamageComputation)) (id : SerializedKey)
    (v : DamageComputation) (h : lookupId store id = some v) :
    (removeId store id).length + 1 = store.length := by
  induction store with
  | nil => simp [lookupId] at h
  | cons e rest ih =>
    rw [lookupId_cons] at h
    rw [removeId_cons]
    by_cases he : e.1 = id
    · simp [he]
    · rw [if_neg he] at h
      simp only [if_neg he, List.length_cons]
      rw [← ih h]

theorem get_store_length (cache : DamageCache) (key : DamageCacheKey) :
    ((cache.get key).2).store.length = cache.store.length := by
  unfold DamageCache.get
  cases h : lookupId cache.store (serializeKey key) with
  | none => simp [h]
  | some v =>
    simp only [h, List.length_append, List.length_cons, List.length_nil]
    have := removeId_length_of_lookup cache.store (serializeKey key) v h
    omega

theorem get_limit (cache : DamageCache) (key : DamageCacheKey) :
    ((cache.get key).2).limit = cache.limit := by
  unfold DamageCache.get
  cases h : lookupId cache.store (serializeKey key) <;> simp [h]

theorem set_limit (cache : DamageCache) (key : DamageCacheKey)
    (value : DamageComputation) : (cache.set key value).limit = cache.limit := by
  unfold DamageCache.set
  dsimp only
  split <;> split <;> rfl

theorem set_store_bound (cache : DamageCache) (key : DamageCacheKey)
    (value : DamageComputation) (h : cache.store.length ≤ cache.limit) :
    (cache.set key value).store.length ≤ cache.limit := by
  unfold DamageCache.set
  have hrem : (removeId cache.store (serializeKey key)).length ≤ cache.store.length :=
    removeId_length_le cache.store (serializeKey key)
  by_cases hs : (lookupId cache.store (serializeKey key)).isSome <;>
    simp only [hs, if_true, if_false, Bool.false_eq_true] <;> split <;>
    simp_all [List.length_append, List.length_drop] <;> omega

theorem execOps_limit (cache : DamageCache) (ops : List CacheOp) :
    (execOps cache ops).limit = cache.limit := by
  induction ops generalizing cache with
  | nil => rfl
  | cons op rest ih =>
    cases op with
    | get key => rw [execOps, ih, get_limit]
    | set key value => rw [execOps, ih, set_limit]

theorem execOps_bound (cache : DamageCache) (ops : List CacheOp)
    (h : cache.store.length ≤ cache.limit) :
    (execOps cache ops).store.length ≤ cache.limit := by
  induction ops generalizing cache with
  | nil => exact h
  | cons op rest ih =>
    cases op with
    | get key =>
      rw [execOps]
      have h2 : ((cache.get key).2).store.length ≤ ((cache.get key).2).limit := by
        rw [get_store_length, get_limit]; exact h
      have := ih ((cache.get key).2) h2
      rwa [get_limit] at this
    | set key value =>
      rw [execOps]
      have h2 : (cache.set key value).store.length ≤ (cache.set key value).limit := by
        rw [set_limit]; exact set_store_bound cache key value h
      have := ih (cache.set key value) h2
      rwa [set_limit] at this

theorem lookupId_append_fresh
    (l1 l2 : List (SerializedKey × DamageComputation)) (id : SerializedKey)
    (v : DamageComputation) (h : id ∉ l1.map Prod.fst) :
    lookupId (l1 ++ (id, v) :: l2) id = some v := by
  induction l1 with
  | nil => simp [lookupId_cons]
  | cons e rest ih =>
    rw [List.cons_append, lookupId_cons]
    have hne : e.1 ≠ id := by
      intro he
      exact h (by simp [← he])
    rw [if_neg hne]
    exact ih (fun hm => h (by simp at hm ⊢; exact Or.inr hm))

theorem removeId_append_fresh
    (l1 l2 : List (SerializedKey × DamageComputation)) (id : SerializedKey)
    (v : DamageComputation) (h : id ∉ l1.map Prod.fst) :
    removeId (l1 ++ (id, v) :: l2) id = l1 ++ l2 := by
  induction l1 with
  | nil => simp [removeId_cons]
  | cons e rest ih =>
    rw [List.cons_append, removeId_cons]
    have hne : e.1 ≠ id := by
      intro he
      exact h (by simp [← he])
    rw [if_neg hne, ih (fun hm => h (by simp at hm ⊢; exact Or.inr hm))]
    rfl

/-- Claim C6: the damage cache is a strict LRU with fixed capacity
defaulting to 512.  From an empty cache, no operation sequence ever
leaves more than limit entries; a get hit moves its entry to the
most-recently-used end and returns the cached value; a set of a fresh
key on a full cache evicts exactly the least-recently-used (front)
entry and keeps the store at capacity. -/
theorem damageCache_lru :
    (mkDamageCache.limit = 512 ∧ DEFAULT_LIMIT = 512) ∧
    (∀ limit : ℕ, ∀ ops : List CacheOp,
      (execOps (mkDamageCache limit) ops).store.length ≤ limit) ∧
    (∀ cache : DamageCache, ∀ key : DamageCacheKey, ∀ v : DamageComputation,
      ∀ l1 l2 : List (SerializedKey × DamageComputation),
      cache.store = l1 ++ (serializeKey key, v) :: l2 →
      serializeKey key ∉ l1.map Prod.fst →
      cache.get key =
        (some v, { cache with store := (l1 ++ l2) ++ [(serializeKey key, v)] })) ∧
    (∀ cache : DamageCache, ∀ key : DamageCacheKey, ∀ value : DamageComputation,
      lookupId cache.store (serializeKey key) = none →
      cache.store.length = cache.limit → 0 < cache.limit →
      (cache.set key value).store =
          cache.store.drop 1 ++ [(serializeKey key, value)] ∧
        (cache.set key value).store.length = cache.limit) := by
  refine ⟨⟨rfl, rfl⟩, ?_, ?_, ?_⟩
  · intro limit ops
    exact execOps_bound (mkDamageCache limit) ops (by simp [mkDamageCache])
  · intro cache key v l1 l2 hstore hfresh
    unfold DamageCache.get
    dsimp only
    rw [hstore, lookupId_append_fresh l1 l2 _ v hfresh,
      removeId_append_fresh l1 l2 _ v hfresh]
  · intro cache key value hnone hfull hpos
    unfold DamageCache.set
    dsimp only
    rw [hnone]
    simp only [Option.isSome_none, Bool.false_eq_true, if_false]
    have hlen : (cache.store ++ [(serializeKey key, value)]).length =
        cache.limit + 1 := by
      simp [hfull]
    rw [if_pos (by omega)]
    constructor
    · have hone : 1 ≤ cache.store.length := by omega
      exact List.drop_append_of_le_length hone
    · simp only [List.length_drop, hlen]
      omega

/-- Witness for C6: on a one-entry cache at capacity 1, setting a fresh
key evicts the old front entry and keeps exactly one entry. -/
theorem damageCache_lru_witness :
    (Cache.DamageCache.set
        { limit := 1
          store := [(serializeKey Fixtures.sampleKey, Fixtures.sampleComputation)] }
        Fixtures.sampleKey2 Fixtures.sampleComputation2).store =
      [(serializeKey Fixtures.sampleKey, Fixtures.sampleComputation)].drop 1 ++
        [(serializeKey Fixtures.sampleKey2, Fixtures.sampleComputation2)] :=
  (damageCache_lru.2.2.2
    { limit := 1
      store := [(serializeKey Fixtures.sampleKey, Fixtures.sampleComputation)] }
    Fixtures.sampleKey2 Fixtures.sampleComputation2
    (by decide) (by decide) (by decide)).1

end Cache

namespace EVGrid

theorem sumWeights_go (ps : List EVGridPoint) (a : ℚ) :
    ps.foldl (fun acc point => acc + point.weight) a =
      a + (ps.map (fun point => point.weight)).sum := by
  induction ps generalizing a with
  | nil => simp
  | cons p t ih => simp [ih, add_assoc]

theorem sumWeights_eq (ps : List EVGridPoint) :
    sumWeights ps = (ps.map (fun point => point.weight)).sum := by
  simp [sumWeights, sumWeights_go]

theorem map_setWeight_sum (ps : List EVGridPoint) (f : EVGridPoint → ℚ) :
    ((ps.map (fun p => { p with weight := f p })).map (fun p => p.weight)).sum
      = (ps.map f).sum := by
  induction ps with
  | nil => simp
  | cons p t ih =>
    simp only [List.map_cons, List.sum_cons]
    rw [ih]

theorem sum_map_div (l : List ℚ) (s : ℚ) :
    (l.map (fun x => x / s)).sum = l.sum / s := by
  induction l with
  | nil => simp
  | cons a t ih => simp [ih, add_div]

theorem sum_map_const_q (l : List EVGridPoint) (c : ℚ) :
    (l.map (fun _ => c)).sum = l.length * c := by
  induction l with
  | nil => simp
  | cons a t ih =>
    simp only [List.map_cons, List.sum_cons, ih, List.length_cons]
    push_cast
    ring

theorem normalizeWeights_nil : normalizeWeights [] = [] := by
  simp [normalizeWeights]

theorem normalizeWeights_of_nonpos (ps : List EVGridPoint)
    (h : sumWeights ps ≤ 0) :
    normalizeWeights ps =
      ps.map (fun p => { p with weight := 1 / (max ps.length 1 : ℕ) }) := by
  unfold normalizeWeights
  rw [if_pos h]

theorem normalizeWeights_of_pos (ps : List EVGridPoint)
    (h : 0 < sumWeights ps) :
    normalizeWeights ps =
      ps.map (fun p => { p with weight := p.weight / sumWeights ps }) := by
  unfold normalizeWeights
  rw [if_neg (not_le.2 h)]

theorem normalizeWeights_sum_one (ps : List EVGridPoint) (h : ps ≠ []) :
    sumWeights (normalizeWeights ps) = 1 := by
  have hlen : 0 < ps.length := List.length_pos.2 h
  have hlenq : (ps.length : ℚ) ≠ 0 := by
    exact_mod_cast Nat.pos_iff_ne_zero.1 hlen
  by_cases hs : sumWeights ps ≤ 0
  · rw [normalizeWeights_of_nonpos ps hs, sumWeights_eq, map_setWeight_sum,
      sum_map_const_q]
    rw [Nat.max_eq_left hlen]
    field_simp
  · have hpos : 0 < sumWeights ps := not_le.1 hs
    rw [normalizeWeights_of_pos ps hpos, sumWeights_eq, map_setWeight_sum]
    have : (ps.map fun p => p.weight / sumWeights ps) =
        (ps.map fun p => p.weight).map (fun x => x / sumWeights ps) := by
      simp
    rw [this, sum_map_div, ← sumWeights_eq, div_self (ne_of_gt hpos)]

theorem setWeight_self (p : EVGridPoint) : ({ p with weight := p.weight }) = p :=
  rfl

/-- Claim C8: normalizeWeights is idempotent — applying it twice in a row
produces the same weights as applying it once. -/
theorem normalizeWeights_idem (ps : List EVGridPoint) :
    normalizeWeights (normalizeWeights ps) = normalizeWeights ps := by
  rcases eq_or_ne ps [] with rfl | h
  · rw [normalizeWeights_nil, normalizeWeights_nil]
  · have h1 : sumWeights (normalizeWeights ps) = 1 := normalizeWeights_sum_one ps h
    rw [normalizeWeights_of_pos _ (by rw [h1]; norm_num), h1]
    simp only [div_one]
    exact List.map_id'' setWeight_self _

theorem applyLikelihoodsGo_length (ls : List ℚ) (i : ℕ) (ps : List EVGridPoint) :
    (applyLikelihoodsGo ls i ps).length = ps.length := by
  induction ps generalizing i with
  | nil => rfl
  | cons p t ih => simp [applyLikelihoodsGo, ih]

theorem applyLikelihoodsGo_ne_nil (ls : List ℚ) (i : ℕ) (ps : List EVGridPoint)
    (h : ps ≠ []) : applyLikelihoodsGo ls i ps ≠ [] := by
  cases ps with
  | nil => exact absurd rfl h
  | cons p t => simp [applyLikelihoodsGo]

/-- Claim C4: applyObservationLikelihoods multiplies each prior by its
(clamped) likelihood and renormalizes, so for a non-empty point list the
resulting weights sum to exactly 1; when the post-multiplication sum is
non-positive (for instance when all likelihoods are 0) every weight
falls back to the uniform 1/n. -/
theorem applyObservationLikelihoods_posterior (ps : List EVGridPoint)
    (ls : List ℚ) (hne : ps ≠ []) (hprior : ∀ p ∈ ps, 0 ≤ p.priorWeight) :
    applyObservationLikelihoods ps (some ls) =
        normalizeWeights (applyLikelihoodsGo ls 0 ps) ∧
      (∀ i p, (updateLikelihood ls i p).weight =
        p.priorWeight * max (ls.getD i 0) 0) ∧
      sumWeights (applyObservationLikelihoods ps (some ls)) = 1 ∧
      (sumWeights (applyLikelihoodsGo ls 0 ps) ≤ 0 →
        ∀ q ∈ applyObservationLikelihoods ps (some ls),
          q.weight = 1 / (ps.length : ℚ)) := by
  have hgo : applyLikelihoodsGo ls 0 ps ≠ [] := applyLikelihoodsGo_ne_nil ls 0 ps hne
  refine ⟨rfl, fun i p => rfl, ?_, ?_⟩
  · show sumWeights (normalizeWeights (applyLikelihoodsGo ls 0 ps)) = 1
    exact normalizeWeights_sum_one _ hgo
  · intro hsum q hq
    have hlen : 0 < ps.length := List.length_pos.2 hne
    have : applyObservationLikelihoods ps (some ls) =
        (applyLikelihoodsGo ls 0 ps).map
          (fun p => { p with
            weight := 1 / (max (applyLikelihoodsGo ls 0 ps).length 1 : ℕ) }) := by
      show normalizeWeights _ = _
      exact normalizeWeights_of_nonpos _ hsum
    rw [this] at hq
    rcases List.mem_map.1 hq with ⟨r, _, hr⟩
    rw [← hr]
    simp only [applyLikelihoodsGo_length]
    rw [Nat.max_eq_left hlen]

/-- Witness for C4: a one-point grid under the all-zero likelihood array
still ends with weights summing to 1. -/
theorem applyObservationLikelihoods_posterior_witness :
    sumWeights (applyObservationLikelihoods
      [{ hpEV := 0, defEV := 0, priorWeight := 1, weight := 1 }] (some [0])) = 1 :=
  (applyObservationLikelihoods_posterior
    [{ hpEV := 0, defEV := 0, priorWeight := 1, weight := 1 }] [0]
    (by decide) (by decide)).2.2.1

theorem planOrderLE_trans (a b c : EVGridPoint)
    (h1 : planOrderLE a b = true) (h2 : planOrderLE b c = true) :
    planOrderLE a c = true := by
  simp only [planOrderLE, Bool.or_eq_true, Bool.and_eq_true, decide_eq_true_eq]
    at h1 h2 ⊢
  rcases h1 with h1 | ⟨e1, s1⟩ <;> rcases h2 with h2 | ⟨e2, s2⟩
  · exact Or.inl (lt_trans h1 h2)
  · exact Or.inl (lt_of_lt_of_le h1 (le_of_eq e2))
  · exact Or.inl (lt_of_le_of_lt (le_of_eq e1) h2)
  · exact Or.inr ⟨e1.trans e2, le_trans s2 s1⟩

theorem planOrderLE_total (a b : EVGridPoint) :
    (planOrderLE a b || planOrderLE b a) = true := by
  simp only [planOrderLE, Bool.or_eq_true, Bool.and_eq_true, decide_eq_true_eq]
  rcases lt_trichotomy (a.hpEV + a.defEV) (b.hpEV + b.defEV) with h | h | h
  · exact Or.inl (Or.inl h)
  · rcases le_total (b.survival.getD 0) (a.survival.getD 0) with hs | hs
    · exact Or.inl (Or.inr ⟨h, hs⟩)
    · exact Or.inr (Or.inr ⟨h.symm, hs⟩)
  · exact Or.inr (Or.inl h)

theorem planOrderLE_le_total (a b : EVGridPoint) (h : planOrderLE a b = true) :
    a.hpEV + a.defEV ≤ b.hpEV + b.defEV := by
  simp only [planOrderLE, Bool.or_eq_true, Bool.and_eq_true, decide_eq_true_eq] at h
  rcases h with h | ⟨he, _⟩
  · exact le_of_lt h
  · exact le_of_eq he

/-- Claim C5: with a positive target, rankTopPlans never returns a plan
whose survival is below target minus the 1e-4 tolerance, and when the
qualifying set is non-empty it returns the qualifying points of minimal
total investment: every point exactly tied for the minimum is included,
and every returned plan is a qualifying point within the 1e-6 tie
tolerance of the minimum. -/
theorem rankTopPlans_target_minimal (points : List EVGridPoint) (t : ℚ)
    (ht : 0 < t) :
    (∀ plan ∈ rankTopPlans points (some t),
        t - TARGET_EPS ≤ plan.survival ∧ plan.meetsTarget = true) ∧
      ((points.filter fun point =>
          decide (t - TARGET_EPS ≤ point.survival.getD 0)) ≠ [] →
        ∃ m : ℚ,
          (∀ p ∈ points.filter fun point =>
              decide (t - TARGET_EPS ≤ point.survival.getD 0),
            m ≤ p.hpEV + p.defEV) ∧
          (∃ p ∈ points.filter fun point =>
              decide (t - TARGET_EPS ≤ point.survival.getD 0),
            p.hpEV + p.defEV = m) ∧
          (∀ p ∈ points.filter fun point =>
              decide (t - TARGET_EPS ≤ point.survival.getD 0),
            p.hpEV + p.defEV = m →
            ({ hpEV := p.hpEV, defEV := p.defEV, survival := p.survival.getD 0
               investment := p.hpEV + p.defEV, totalEV := p.hpEV + p.defEV
               meetsTarget := true } : EVPlan) ∈ rankTopPlans points (some t)) ∧
          (∀ plan ∈ rankTopPlans points (some t),
            ∃ p ∈ points.filter fun point =>
                decide (t - TARGET_EPS ≤ point.survival.getD 0),
              plan = { hpEV := p.hpEV, defEV := p.defEV
                       survival := p.survival.getD 0
                       investment := p.hpEV + p.defEV, totalEV := p.hpEV + p.defEV
                       meetsTarget := true } ∧
                |p.hpEV + p.defEV - m| ≤ MIN_EV_EPS)) := by
  set cand := points.filter
    (fun point => decide (t - TARGET_EPS ≤ point.survival.getD 0)) with hcand
  have hperm : (cand.mergeSort planOrderLE).Perm cand :=
    List.mergeSort_perm cand planOrderLE
  have hdef : rankTopPlans points (some t) =
      match cand.mergeSort planOrderLE with
      | [] => []
      | c0 :: _ =>
        (cand.mergeSort planOrderLE).filter (fun point =>
            decide (|point.hpEV + point.defEV - (c0.hpEV + c0.defEV)| ≤ MIN_EV_EPS))
          |>.map (fun point =>
            { hpEV := point.hpEV, defEV := point.defEV
              survival := point.survival.getD 0
              investment := point.hpEV + point.defEV
              totalEV := point.hpEV + point.defEV
              meetsTarget := true }) := by
    simp only [rankTopPlans, if_neg (not_le.2 ht), ← hcand]
  cases hs : cand.mergeSort planOrderLE with
  | nil =>
    have hnil : cand = [] := by
      rw [hs] at hperm
      exact (List.Perm.nil_eq hperm).symm
    rw [hs] at hdef
    constructor
    · intro plan hplan
      rw [hdef] at hplan
      exact absurd hplan (List.not_mem_nil plan)
    · intro hne
      exact absurd hnil hne
  | cons c0 rest =>
    rw [hs] at hdef hperm
    have hsorted := List.sorted_mergeSort planOrderLE_trans planOrderLE_total cand
    rw [hs] at hsorted
    have hhead : ∀ b ∈ rest, planOrderLE c0 b = true :=
      (List.pairwise_cons.1 hsorted).1
    have hmemiff : ∀ p : EVGridPoint, p ∈ cand ↔ p ∈ c0 :: rest :=
      fun p => (List.Perm.mem_iff hperm).symm
    have hlb : ∀ p ∈ cand, c0.hpEV + c0.defEV ≤ p.hpEV + p.defEV := by
      intro p hp
      rcases List.mem_cons.1 ((hmemiff p).1 hp) with rfl | h
      · exact le_rfl
      · exact planOrderLE_le_total c0 p (hhead p h)
    have hsound : ∀ plan ∈ rankTopPlans points (some t),
        ∃ p ∈ cand, plan =
            { hpEV := p.hpEV, defEV := p.defEV, survival := p.survival.getD 0
              investment := p.hpEV + p.defEV, totalEV := p.hpEV + p.defEV
              meetsTarget := true } ∧
          |p.hpEV + p.defEV - (c0.hpEV + c0.defEV)| ≤ MIN_EV_EPS := by
      intro plan hplan
      rw [hdef] at hplan
      rcases List.mem_map.1 hplan with ⟨p, hpf, hpe⟩
      rcases List.mem_filter.1 hpf with ⟨hpmem, hpred⟩
      refine ⟨p, (hmemiff p).2 hpmem, hpe.symm, ?_⟩
      exact of_decide_eq_true hpred
    refine ⟨?_, ?_⟩
    · intro plan hplan
      rcases hsound plan hplan with ⟨p, hpc, hpe, _⟩
      have hq : t - TARGET_EPS ≤ p.survival.getD 0 := by
        have := (List.mem_filter.1 (hcand ▸ hpc)).2
        exact of_decide_eq_true this
      rw [hpe]
      exact ⟨hq, rfl⟩
    · intro _
      refine ⟨c0.hpEV + c0.defEV, hlb, ⟨c0, (hmemiff c0).2 (List.mem_cons_self c0 rest), rfl⟩,
        ?_, hsound⟩
      intro p hp hpm
      rw [hdef]
      apply List.mem_map.2
      refine ⟨p, ?_, rfl⟩
      apply List.mem_filter.2
      refine ⟨(hmemiff p).1 hp, ?_⟩
      apply decide_eq_true
      rw [hpm]
      simp [MIN_EV_EPS]

/-- Witness for C5: the single qualifying point of a one-point grid is
returned as the minimal-investment plan. -/
theorem rankTopPlans_target_minimal_witness :
    ({ hpEV := 0, defEV := 0, survival := 1, investment := 0, totalEV := 0
       meetsTarget := true } : EVPlan) ∈
      rankTopPlans
        [{ hpEV := 0, defEV := 0, priorWeight := 1, weight := 1
           survival := some 1 }] (some (1 / 2)) := by
  have hmem :
      ({ hpEV := 0, defEV := 0, priorWeight := 1, weight := 1, survival := some 1 } : EVGridPoint) ∈
      List.filter (fun point => decide ((1 : ℚ) / 2 - TARGET_EPS ≤ point.survival.getD 0))
        [{ hpEV := 0, defEV := 0, priorWeight := 1, weight := 1, survival := some 1 }] := by
    apply List.mem_filter.2
    refine ⟨List.mem_cons_self _ _, ?_⟩
    apply decide_eq_true
    norm_num [TARGET_EPS]
  have h := (rankTopPlans_target_minimal
    [{ hpEV := 0, defEV := 0, priorWeight := 1, weight := 1, survival := some 1 }]
    (1 / 2) (by norm_num)).2 (by
      intro hnil
      rw [hnil] at hmem
      exact absurd hmem (List.not_mem_nil _))
  obtain ⟨m, hlb, ⟨p, hp, hpm⟩, hties, hsound⟩ := h
  have hpe : p = { hpEV := 0, defEV := 0, priorWeight := 1, weight := 1
                   survival := some 1 } := by
    have := List.mem_filter.1 hp
    simpa using this.1
  rw [hpe] at hpm
  have := hties
    { hpEV := 0, defEV := 0, priorWeight := 1, weight := 1, survival := some 1 }
    hmem (by rw [← hpm])
  simpa using this

theorem axisValues_mem (lo hi step x : ℚ) (h : x ∈ axisValues lo hi step) :
    ∃ k : ℕ, x = lo + k * step ∧ lo ≤ x ∧ x ≤ hi := by
  induction lo, hi, step using axisValues.induct with
  | case1 lo hi step hstep hle ih =>
    rw [axisValues, dif_pos hstep, dif_pos hle] at h
    rcases List.mem_cons.1 h with rfl | hm
    · exact ⟨0, by simp, le_refl x, hle⟩
    · rcases ih hm with ⟨k, hk, hlo, hhi⟩
      exact ⟨k + 1, by push_cast; linarith, by nlinarith [hstep, hlo], hhi⟩
  | case2 lo hi step hstep hle =>
    rw [axisValues, dif_pos hstep, dif_neg hle] at h
    exact absurd h (List.not_mem_nil x)
  | case3 lo hi step hstep =>
    rw [axisValues, dif_neg hstep] at h
    exact absurd h (List.not_mem_nil x)

theorem mem_normalizeWeights (ps : List EVGridPoint) (p : EVGridPoint)
    (h : p ∈ normalizeWeights ps) :
    ∃ q ∈ ps, p.hpEV = q.hpEV ∧ p.defEV = q.defEV ∧
      p.atkEV = q.atkEV ∧ p.spaEV = q.spaEV := by
  by_cases hs : sumWeights ps ≤ 0
  · rw [normalizeWeights_of_nonpos ps hs] at h
    obtain ⟨q, hq, he⟩ := List.mem_map.1 h
    exact ⟨q, hq, by rw [← he], by rw [← he], by rw [← he], by rw [← he]⟩
  · rw [normalizeWeights_of_pos ps (not_le.1 hs)] at h
    obtain ⟨q, hq, he⟩ := List.mem_map.1 h
    exact ⟨q, hq, by rw [← he], by rw [← he], by rw [← he], by rw [← he]⟩

/-- Claim C9: both grid builders enumerate on the effective step
max(4, configured step) — positive even for zero or negative configured
steps, which is what makes the enumeration loops terminate (the Lean
embedding is total by exactly this positivity) — every generated point
lies on that step inside the configured ranges, and points whose
combined investment exceeds the configured maximum are omitted. -/
theorem buildGrids_step_and_bounds (expQ : ℚ → ℚ) (config : EVGridConfig) :
    (∀ p ∈ buildEVGrid expQ config,
      (∃ i : ℕ, p.hpEV = config.hpRange.1 + i * max 4 config.axisStep) ∧
      config.hpRange.1 ≤ p.hpEV ∧ p.hpEV ≤ config.hpRange.2 ∧
      (∃ j : ℕ, p.defEV = config.defRange.1 + j * max 4 config.axisStep) ∧
      config.defRange.1 ≤ p.defEV ∧ p.defEV ≤ config.defRange.2 ∧
      ∀ limit, config.maxCombinedEV = some limit → p.hpEV + p.defEV ≤ limit) ∧
    (∀ p ∈ buildOffenseEVGrid config, ∃ atk spa : ℚ,
      p.atkEV = some atk ∧ p.spaEV = some spa ∧
      (∃ i : ℕ, atk = (config.atkRange.getD (0, 252)).1 +
        i * max 4 (config.offenseStep.getD config.axisStep)) ∧
      (config.atkRange.getD (0, 252)).1 ≤ atk ∧
      atk ≤ (config.atkRange.getD (0, 252)).2 ∧
      (∃ j : ℕ, spa = (config.spaRange.getD (0, 252)).1 +
        j * max 4 (config.offenseStep.getD config.axisStep)) ∧
      (config.spaRange.getD (0, 252)).1 ≤ spa ∧
      spa ≤ (config.spaRange.getD (0, 252)).2 ∧
      ∀ limit, config.offenseMaxCombinedEV.or config.maxCombinedEV = some limit →
        atk + spa ≤ limit) ∧
    (4 : ℚ) ≤ max 4 config.axisStep := by
  refine ⟨?_, ?_, le_max_left 4 config.axisStep⟩
  · intro p hp
    obtain ⟨q, hq, he1, he2, _, _⟩ := mem_normalizeWeights _ p hp
    obtain ⟨hpv, hhp, hq2⟩ := List.mem_flatMap.1 hq
    obtain ⟨dv, hdv, hq3⟩ := List.mem_filterMap.1 hq2
    obtain ⟨i, hi, hlo, hhi⟩ := axisValues_mem _ _ _ hpv hhp
    obtain ⟨j, hj, hlo2, hhi2⟩ := axisValues_mem _ _ _ dv hdv
    have hqfields : q.hpEV = hpv ∧ q.defEV = dv ∧
        ∀ limit, config.maxCombinedEV = some limit → hpv + dv ≤ limit := by
      rcases hmc : config.maxCombinedEV with _ | limit
      · rw [hmc] at hq3
        dsimp only at hq3
        simp only [Option.some.injEq] at hq3
        rw [← hq3]
        exact ⟨rfl, rfl, fun l hl => by simp at hl⟩
      · rw [hmc] at hq3
        dsimp only at hq3
        by_cases hlim : limit < hpv + dv
        · rw [if_pos hlim] at hq3
          simp at hq3
        · rw [if_neg hlim] at hq3
          simp only [Option.some.injEq] at hq3
          rw [← hq3]
          exact ⟨rfl, rfl, fun l hl => by
            rw [Option.some.injEq] at hl
            rw [← hl]
            exact le_of_not_lt hlim⟩
    rw [he1, he2, hqfields.1, hqfields.2.1]
    exact ⟨⟨i, hi⟩, hlo, hhi, ⟨j, hj⟩, hlo2, hhi2, hqfields.2.2⟩
  · intro p hp
    obtain ⟨q, hq, _, _, he3, he4⟩ := mem_normalizeWeights _ p hp
    obtain ⟨av, hav, hq2⟩ := List.mem_flatMap.1 hq
    obtain ⟨sv, hsv, hq3⟩ := List.mem_filterMap.1 hq2
    obtain ⟨i, hi, hlo, hhi⟩ := axisValues_mem _ _ _ av hav
    obtain ⟨j, hj, hlo2, hhi2⟩ := axisValues_mem _ _ _ sv hsv
    have hqfields : q.atkEV = some av ∧ q.spaEV = some sv ∧
        ∀ limit, config.offenseMaxCombinedEV.or config.maxCombinedEV = some limit →
          av + sv ≤ limit := by
      rcases hmc : config.offenseMaxCombinedEV.or config.maxCombinedEV with _ | limit
      · rw [hmc] at hq3
        dsimp only at hq3
        simp only [Option.some.injEq] at hq3
        rw [← hq3]
        exact ⟨rfl, rfl, fun l hl => by simp at hl⟩
      · rw [hmc] at hq3
        dsimp only at hq3
        by_cases hlim : limit < av + sv
        · rw [if_pos hlim] at hq3
          simp at hq3
        · rw [if_neg hlim] at hq3
          simp only [Option.some.injEq] at hq3
          rw [← hq3]
          exact ⟨rfl, rfl, fun l hl => by
            rw [Option.some.injEq] at hl
            rw [← hl]
            exact le_of_not_lt hlim⟩
    exact ⟨av, sv, he3.trans hqfields.1, he4.trans hqfields.2.1,
      ⟨i, hi⟩, hlo, hhi, ⟨j, hj⟩, hlo2, hhi2, hqfields.2.2⟩

/-- Witness for C9 at the degenerate single-point configuration. -/
theorem buildGrids_step_and_bounds_witness :
    (∃ i : ℕ, (0 : ℚ) = 0 + i * max 4 (4 : ℚ)) ∧
      (0 : ℚ) ≤ 0 ∧ (0 : ℚ) ≤ 0 ∧
      (∃ j : ℕ, (0 : ℚ) = 0 + j * max 4 (4 : ℚ)) ∧
      (0 : ℚ) ≤ 0 ∧ (0 : ℚ) ≤ 0 ∧
      ∀ limit, Fixtures.sampleGridConfig.maxCombinedEV = some limit →
        (0 : ℚ) + 0 ≤ limit := by
  have hax : axisValues 0 0 4 = [0] := by
    rw [axisValues, dif_pos (by norm_num : (0 : ℚ) < 4), dif_pos (le_refl (0 : ℚ))]
    rw [axisValues, dif_pos (by norm_num : (0 : ℚ) < 4),
      dif_neg (by norm_num : ¬((0 : ℚ) + 4 ≤ 0))]
  have hbuild : buildEVGrid (fun _ => 1) Fixtures.sampleGridConfig =
      [{ hpEV := 0, defEV := 0, kind := some GridKind.defense
         priorWeight := 1, weight := 1 }] := by
    unfold buildEVGrid
    dsimp only [Fixtures.sampleGridConfig]
    rw [show max (4 : ℚ) 4 = 4 from max_self 4]
    rw [hax]
    norm_num [normalizeWeights, sumWeights, mkDefensePoint, List.filterMap_cons,
      computePriorWeight]
  have hmem :
      ({ hpEV := 0, defEV := 0, kind := some GridKind.defense, priorWeight := 1, weight := 1 } : EVGridPoint) ∈
      buildEVGrid (fun _ => 1) Fixtures.sampleGridConfig := by
    rw [hbuild]
    exact List.mem_cons_self _ _
  exact (buildGrids_step_and_bounds (fun _ => 1) Fixtures.sampleGridConfig).1 _ hmem

theorem foldl_min_attained (rest : List OffenseEntry) (a : ℚ) :
    rest.foldl (fun acc entry => min acc entry.totalEV) a = a ∨
      ∃ e ∈ rest, rest.foldl (fun acc entry => min acc entry.totalEV) a = e.totalEV := by
  induction rest generalizing a with
  | nil => exact Or.inl rfl
  | cons e t ih =>
    simp only [List.foldl_cons]
    rcases ih (min a e.totalEV) with h | ⟨e2, he2, h⟩
    · rcases min_cases a e.totalEV with ⟨hm, _⟩ | ⟨hm, _⟩
      · exact Or.inl (by rw [h, hm])
      · exact Or.inr ⟨e, List.mem_cons_self _ _, by rw [h, hm]⟩
    · exact Or.inr ⟨e2, List.mem_cons_of_mem _ he2, h⟩

theorem minTotalEV_attained (g0 : OffenseEntry) (gs : List OffenseEntry) :
    ∃ e ∈ g0 :: gs, minTotalEV g0 gs = e.totalEV := by
  rcases foldl_min_attained gs g0.totalEV with h | ⟨e, he, h⟩
  · exact ⟨g0, List.mem_cons_self _ _, h⟩
  · exact ⟨e, List.mem_cons_of_mem _ he, h⟩

theorem selectTiers_length : ∀ pool selected : List OffenseEntry,
    selected.length ≤ (selectTiers pool selected).length := by
  intro pool selected
  induction pool, selected using selectTiers.induct with
  | case1 selected => rw [selectTiers]
  | case2 selected head tl hsel =>
    rw [selectTiers]
    rw [if_pos hsel]
  | case3 selected head tl hsel inTier chanceGroup rest minEV minimal ih =>
    rw [selectTiers]
    rw [if_neg hsel]
    refine le_trans ?_ ih
    simp

theorem selectTiers_subset : ∀ pool selected : List OffenseEntry,
    ∀ x ∈ selectTiers pool selected, x ∈ selected ∨ x ∈ pool := by
  intro pool selected
  induction pool, selected using selectTiers.induct with
  | case1 selected =>
    intro x hx
    rw [selectTiers] at hx
    exact Or.inl hx
  | case2 selected head tl hsel =>
    intro x hx
    rw [selectTiers, if_pos hsel] at hx
    exact Or.inl hx
  | case3 selected head tl hsel inTier chanceGroup rest minEV minimal ih =>
    intro x hx
    rw [selectTiers, if_neg hsel] at hx
    rcases ih x hx with hsel2 | hrest
    · rcases List.mem_append.1 hsel2 with h | h
      · exact Or.inl h
      · have h1 : x ∈ minimal := (List.take_sublist _ _).subset h
        have h2 : x ∈ chanceGroup := List.mem_of_mem_filter h1
        exact Or.inr ((List.takeWhile_sublist inTier).subset h2)
    · exact Or.inr ((List.dropWhile_sublist inTier).subset hrest)

theorem selectTiers_ne_nil_of (pool sel : List OffenseEntry) (h : sel ≠ []) :
    selectTiers pool sel ≠ [] := by
  intro hnil
  have hlen := selectTiers_length pool sel
  rw [hnil] at hlen
  simp only [List.length_nil, Nat.le_zero] at hlen
  exact h (List.length_eq_zero.1 hlen)

theorem offenseMeets_false (t : ℚ) (ht : 0 < t) (e : OffenseEntry)
    (h : e.koChance < t - KO_EPS) : offenseMeets (some t) e = false := by
  simp only [offenseMeets, if_pos ht, decide_eq_false_iff_not]
  exact not_le.2 h

theorem offense_pipeline (entries : List OffenseEntry) (t : ℚ) (ht : 0 < t)
    (hne : entries ≠ [])
    (hmiss : ∀ e ∈ entries, e.koChance < t - KO_EPS) :
    (if (entries.mergeSort offenseOrderLE).filter (offenseMeets (some t)) = []
        then entries.mergeSort offenseOrderLE
        else (entries.mergeSort offenseOrderLE).filter (offenseMeets (some t))) =
      entries.mergeSort offenseOrderLE ∧
    selectTiers (entries.mergeSort offenseOrderLE) [] ≠ [] ∧
    (∀ e ∈ selectTiers (entries.mergeSort offenseOrderLE) [],
      offenseMeets (some t) e = false) := by
  have hperm := List.mergeSort_perm entries offenseOrderLE
  have hmem : ∀ e ∈ entries.mergeSort offenseOrderLE, e.koChance < t - KO_EPS :=
    fun e he => hmiss e ((List.Perm.mem_iff hperm).1 he)
  have hfil : (entries.mergeSort offenseOrderLE).filter (offenseMeets (some t)) = [] := by
    rw [List.filter_eq_nil_iff]
    intro e he
    rw [offenseMeets_false t ht e (hmem e he)]
    simp
  have hbs : entries.mergeSort offenseOrderLE ≠ [] := by
    intro hb
    rw [hb] at hperm
    exact hne (List.Perm.nil_eq hperm).symm
  refine ⟨if_pos hfil, ?_, ?_⟩
  · rcases List.exists_cons_of_ne_nil hbs with ⟨h0, tl0, hcons⟩
    have hg : List.takeWhile
        (fun entry => decide (|entry.koChance - h0.koChance| ≤ KO_EPS)) (h0 :: tl0) =
        h0 :: List.takeWhile
          (fun entry => decide (|entry.koChance - h0.koChance| ≤ KO_EPS)) tl0 := by
      rw [List.takeWhile_cons]
      norm_num [KO_EPS]
    rw [hcons, selectTiers, if_neg (by simp)]
    dsimp only
    rw [hg]
    dsimp only
    apply selectTiers_ne_nil_of
    rw [List.nil_append]
    intro htake
    rcases List.take_eq_nil_iff.1 htake with h3 | hminnil
    · simp at h3
    · obtain ⟨e, hech, hemin⟩ := minTotalEV_attained h0
        (List.takeWhile (fun entry => decide (|entry.koChance - h0.koChance| ≤ KO_EPS)) tl0)
      have hef : e ∈ List.filter
          (fun entry => decide (|entry.totalEV -
            minTotalEV h0 (List.takeWhile
              (fun entry => decide (|entry.koChance - h0.koChance| ≤ KO_EPS)) tl0)| ≤ EV_EPS))
          (h0 :: List.takeWhile
            (fun entry => decide (|entry.koChance - h0.koChance| ≤ KO_EPS)) tl0) := by
        apply List.mem_filter.2
        refine ⟨hech, ?_⟩
        apply decide_eq_true
        rw [hemin]
        simp [EV_EPS]
      rw [hminnil] at hef
      exact absurd hef (List.not_mem_nil e)
  · intro e he
    rcases selectTiers_subset _ [] e he with h | h
    · exact absurd h (List.not_mem_nil e)
    · exact offenseMeets_false t ht e (hmem e h)

/-- Claim C10: with at least one offense-kind point carrying a numeric
KO chance and a positive target no point meets, rankOffensePlans does
not return the empty list: the target filter leaves nothing, so it falls
back to the full sorted candidate pool and every returned plan is marked
meetsTarget = false — in contrast to rankTopPlans, which returns the
empty list when no point qualifies. -/
theorem rankOffensePlans_fallback (points : List EVGridPoint) (t : ℚ) (ht : 0 < t)
    (hex : ∃ p ∈ points, p.kind = some GridKind.offense ∧ p.koChance.isSome = true)
    (hmiss : ∀ p ∈ points, p.kind = some GridKind.offense →
      p.koChance.isSome = true → p.koChance.getD 0 < t - KO_EPS) :
    rankOffensePlans points (some t) ≠ [] ∧
      (∀ plan ∈ rankOffensePlans points (some t), plan.meetsTarget = false) ∧
      (∀ dpoints : List EVGridPoint, ∀ t2 : ℚ, 0 < t2 →
        (∀ p ∈ dpoints, p.survival.getD 0 < t2 - TARGET_EPS) →
        rankTopPlans dpoints (some t2) = []) := by
  obtain ⟨p0, hp0, hk0, hks0⟩ := hex
  have hrank3 : ∀ dpoints : List EVGridPoint, ∀ t2 : ℚ, 0 < t2 →
      (∀ p ∈ dpoints, p.survival.getD 0 < t2 - TARGET_EPS) →
      rankTopPlans dpoints (some t2) = [] := by
    intro dpoints t2 ht2 hall
    simp only [rankTopPlans, if_neg (not_le.2 ht2)]
    have hfil : dpoints.filter
        (fun point => decide (t2 - TARGET_EPS ≤ point.survival.getD 0)) = [] := by
      rw [List.filter_eq_nil_iff]
      intro p hp
      simp only [decide_eq_true_eq]
      exact not_le.2 (hall p hp)
    rw [hfil, List.mergeSort_nil]
  simp only [rankOffensePlans]
  have hentry : ({ atkEV := p0.atkEV.getD 0, spaEV := p0.spaEV.getD 0,
                   koChance := p0.koChance.getD 0,
                   totalEV := p0.atkEV.getD 0 + p0.spaEV.getD 0 } : OffenseEntry) ∈
      ((points.filter fun point =>
          decide (point.kind = some GridKind.offense)).filter
        (fun point => point.koChance.isSome)).map
        (fun point => ({ atkEV := point.atkEV.getD 0, spaEV := point.spaEV.getD 0,
                         koChance := point.koChance.getD 0,
                         totalEV := point.atkEV.getD 0 + point.spaEV.getD 0 } : OffenseEntry)) := by
    apply List.mem_map.2
    refine ⟨p0, ?_, rfl⟩
    apply List.mem_filter.2
    refine ⟨List.mem_filter.2 ⟨hp0, decide_eq_true hk0⟩, hks0⟩
  have hne := List.ne_nil_of_mem hentry
  rcases List.exists_cons_of_ne_nil hne with ⟨c, cs, hcons⟩
  have hmementry : ∀ e ∈ c :: cs, e.koChance < t - KO_EPS := by
    intro e he
    rw [← hcons] at he
    obtain ⟨p, hp, hpe⟩ := List.mem_map.1 he
    obtain ⟨hp1, hp2⟩ := List.mem_filter.1 hp
    obtain ⟨hpts, hpk⟩ := List.mem_filter.1 hp1
    rw [← hpe]
    exact hmiss p hpts (of_decide_eq_true hpk) hp2
  rw [hcons]
  dsimp only
  rw [decide_eq_true ht]
  simp only [if_true]
  obtain ⟨hpool, hsel, hfalse⟩ :=
    offense_pipeline (c :: cs) t ht (List.cons_ne_nil c cs) hmementry
  rw [hpool]
  refine ⟨?_, ?_, hrank3⟩
  · intro hmap
    exact hsel (List.map_eq_nil_iff.1 hmap)
  · intro plan hplan
    obtain ⟨e, he, hpe⟩ := List.mem_map.1 hplan
    rw [← hpe]
    exact hfalse e he

/-- Witness for C10: a single offense point with KO chance one half under
target 1 still yields a non-empty plan list. -/
theorem rankOffensePlans_fallback_witness :
    rankOffensePlans
      [{ hpEV := 0, defEV := 0, atkEV := some 0, spaEV := some 0
         kind := some GridKind.offense, priorWeight := 1, weight := 1
         koChance := some (1 / 2) }] (some 1) ≠ [] :=
  (rankOffensePlans_fallback
    [{ hpEV := 0, defEV := 0, atkEV := some 0, spaEV := some 0
       kind := some GridKind.offense, priorWeight := 1, weight := 1
       koChance := some (1 / 2) }] 1 (by norm_num)
    ⟨_, List.mem_cons_self _ _, rfl, rfl⟩
    (by
      intro p hp h1 h2
      rcases List.mem_cons.1 hp with rfl | hnil
      · norm_num [KO_EPS]
      · exact absurd hnil (List.not_mem_nil p))).1

end EVGrid

namespace Calc

theorem PerSide.get_set_same {α : Type} (r : PerSide α) (s : BattleSide) (v : α) :
    (r.set s v).get s = v := by
  cases s <;> rfl

theorem PerSide.get_set_other {α : Type} (r : PerSide α) (s s2 : BattleSide)
    (v : α) (h : s2 ≠ s) : (r.set s v).get s2 = r.get s2 := by
  cases s <;> cases s2 <;> first | rfl | exact absurd rfl h

end Calc

namespace Timeline

open Calc

theorem applyRollDamage_probability (tgt : BattleSide) (rp : ℚ)
    (roll : DamageRollOutcome) (b : BranchState) :
    (applyRollDamage tgt rp roll b).probability = rp := rfl

theorem applyRollDamage_terminated (tgt : BattleSide) (rp : ℚ)
    (roll : DamageRollOutcome) (b : BranchState) :
    (applyRollDamage tgt rp roll b).terminated = b.terminated := rfl

theorem applyRollDamage_hp_get (tgt : BattleSide) (rp : ℚ)
    (roll : DamageRollOutcome) (b : BranchState) :
    (applyRollDamage tgt rp roll b).hp.get tgt =
      b.hp.get tgt - min roll.damage (b.hp.get tgt) := by
  unfold applyRollDamage
  dsimp only
  rw [PerSide.get_set_same]
  exact max_eq_right (sub_nonneg.2 (min_le_right _ _))

theorem applyDrain_probability (a : BattleSide) (roll : DamageRollOutcome)
    (b : BranchState) : (applyDrain a roll b).probability = b.probability := by
  unfold applyDrain
  cases hd : roll.drain
  · rfl
  · dsimp only
    split <;> rfl

theorem applyDrain_terminated (a : BattleSide) (roll : DamageRollOutcome)
    (b : BranchState) : (applyDrain a roll b).terminated = b.terminated := by
  unfold applyDrain
  cases hd : roll.drain
  · rfl
  · dsimp only
    split <;> rfl

theorem applyDrain_hp_get_other (a t : BattleSide) (roll : DamageRollOutcome)
    (b : BranchState) (h : t ≠ a) :
    (applyDrain a roll b).hp.get t = b.hp.get t := by
  unfold applyDrain
  cases hd : roll.drain
  · rfl
  · dsimp only
    split
    · rfl
    · exact PerSide.get_set_other _ _ _ _ h

theorem applyRecoil_probability (a : BattleSide) (roll : DamageRollOutcome)
    (b : BranchState) : (applyRecoil a roll b).probability = b.probability := by
  unfold applyRecoil
  cases hr : roll.recoil
  · rfl
  · dsimp only
    split <;> rfl

theorem applyRecoil_terminated (a : BattleSide) (roll : DamageRollOutcome)
    (b : BranchState) : (applyRecoil a roll b).terminated = b.terminated := by
  unfold applyRecoil
  cases hr : roll.recoil
  · rfl
  · dsimp only
    split <;> rfl

theorem applyRecoil_hp_get_other (a t : BattleSide) (roll : DamageRollOutcome)
    (b : BranchState) (h : t ≠ a) :
    (applyRecoil a roll b).hp.get t = b.hp.get t := by
  unfold applyRecoil
  cases hr : roll.recoil
  · rfl
  · dsimp only
    split
    · rfl
    · exact PerSide.get_set_other _ _ _ _ h

theorem applyTeraFlip_hp (a : BattleSide) (pm : String) (att : PokemonState)
    (mv : MoveConfig) (b : BranchState) :
    (applyTeraFlip a pm att mv b).hp = b.hp := by
  unfold applyTeraFlip
  dsimp only
  repeat' split
  all_goals rfl

theorem applyTeraFlip_probability (a : BattleSide) (pm : String)
    (att : PokemonState) (mv : MoveConfig) (b : BranchState) :
    (applyTeraFlip a pm att mv b).probability = b.probability := by
  unfold applyTeraFlip
  dsimp only
  repeat' split
  all_goals rfl

theorem applyTeraFlip_terminated (a : BattleSide) (pm : String)
    (att : PokemonState) (mv : MoveConfig) (b : BranchState) :
    (applyTeraFlip a pm att mv b).terminated = b.terminated := by
  unfold applyTeraFlip
  dsimp only
  repeat' split
  all_goals rfl

theorem applyStellarTrack_hp (ctx : SimulationContext) (a : BattleSide)
    (mv : MoveConfig) (mt : String) (b : BranchState) :
    (applyStellarTrack ctx a mv mt b).hp = b.hp := by
  unfold applyStellarTrack
  split <;> rfl

theorem applyStellarTrack_probability (ctx : SimulationContext) (a : BattleSide)
    (mv : MoveConfig) (mt : String) (b : BranchState) :
    (applyStellarTrack ctx a mv mt b).probability = b.probability := by
  unfold applyStellarTrack
  split <;> rfl

theorem applyStellarTrack_terminated (ctx : SimulationContext) (a : BattleSide)
    (mv : MoveConfig) (mt : String) (b : BranchState) :
    (applyStellarTrack ctx a mv mt b).terminated = b.terminated := by
  unfold applyStellarTrack
  split <;> rfl

theorem applyAttackTermination_hp (a t : BattleSide) (b : BranchState) :
    (applyAttackTermination a t b).hp = b.hp := by
  unfold applyAttackTermination
  split <;> rfl

theorem applyAttackTermination_probability (a t : BattleSide) (b : BranchState) :
    (applyAttackTermination a t b).probability = b.probability := by
  unfold applyAttackTermination
  split <;> rfl

theorem applyAttackTermination_terminated (a t : BattleSide) (b : BranchState)
    (hb : b.terminated = false) :
    ((applyAttackTermination a t b).terminated = true ↔
      b.hp.get t ≤ 0 ∨ b.hp.get a ≤ 0) := by
  unfold applyAttackTermination
  split
  · simpa using (by assumption : b.hp.get t ≤ 0 ∨ b.hp.get a ≤ 0)
  · simp only [hb, Bool.false_eq_true, false_iff]
    assumption

theorem attackChild_probability (ctx : SimulationContext) (event : AttackEvent)
    (tgt : BattleSide) (branch : BranchState) (attacker : PokemonState)
    (moveForCalc : MoveConfig) (moveType : String) (rp : ℚ)
    (roll : DamageRollOutcome) :
    (attackChild ctx event tgt branch attacker moveForCalc moveType rp
      roll).probability = rp := by
  unfold attackChild
  rw [applyAttackTermination_probability, applyStellarTrack_probability,
    applyTeraFlip_probability, applyRecoil_probability, applyDrain_probability,
    applyRollDamage_probability]

theorem attackChild_hp_tgt (ctx : SimulationContext) (event : AttackEvent)
    (tgt : BattleSide) (branch : BranchState) (attacker : PokemonState)
    (moveForCalc : MoveConfig) (moveType : String) (rp : ℚ)
    (roll : DamageRollOutcome) (hne : tgt ≠ event.actor) :
    (attackChild ctx event tgt branch attacker moveForCalc moveType rp
      roll).hp.get tgt =
      branch.hp.get tgt - min roll.damage (branch.hp.get tgt) := by
  unfold attackChild
  rw [applyAttackTermination_hp, applyStellarTrack_hp, applyTeraFlip_hp,
    applyRecoil_hp_get_other _ _ _ _ hne, applyDrain_hp_get_other _ _ _ _ hne,
    applyRollDamage_hp_get]

theorem attackChild_hp_tgt_nonneg (ctx : SimulationContext) (event : AttackEvent)
    (tgt : BattleSide) (branch : BranchState) (attacker : PokemonState)
    (moveForCalc : MoveConfig) (moveType : String) (rp : ℚ)
    (roll : DamageRollOutcome) (hne : tgt ≠ event.actor) :
    0 ≤ (attackChild ctx event tgt branch attacker moveForCalc moveType rp
      roll).hp.get tgt := by
  rw [attackChild_hp_tgt ctx event tgt branch attacker moveForCalc moveType rp
    roll hne]
  have := min_le_right roll.damage (branch.hp.get tgt)
  linarith

theorem attackChild_terminated_iff (ctx : SimulationContext)
    (event : AttackEvent) (tgt : BattleSide) (branch : BranchState)
    (attacker : PokemonState) (moveForCalc : MoveConfig) (moveType : String)
    (rp : ℚ) (roll : DamageRollOutcome) (hb : branch.terminated = false) :
    ((attackChild ctx event tgt branch attacker moveForCalc moveType rp
        roll).terminated = true ↔
      (attackChild ctx event tgt branch attacker moveForCalc moveType rp
        roll).hp.get tgt ≤ 0 ∨
      (attackChild ctx event tgt branch attacker moveForCalc moveType rp
        roll).hp.get event.actor ≤ 0) := by
  have hb5 : (applyStellarTrack ctx event.actor moveForCalc moveType
      (applyTeraFlip event.actor (branch.teraMode.get event.actor) attacker
        moveForCalc (applyRecoil event.actor roll
          (applyDrain event.actor roll
            (applyRollDamage tgt rp roll branch))))).terminated = false := by
    rw [applyStellarTrack_terminated, applyTeraFlip_terminated,
      applyRecoil_terminated, applyDrain_terminated, applyRollDamage_terminated,
      hb]
  unfold attackChild
  rw [applyAttackTermination_hp]
  exact applyAttackTermination_terminated _ _ _ hb5


/-- Claim C2: an attack on a live branch with positive HP on both sides
produces exactly one child branch per damage roll; each child carries
probability mass parent/n, and the HP subtracted from the target is the
roll's damage clamped to the target's remaining HP, so the target's HP
never goes below 0. -/
theorem processAttack_per_roll_split (ctx : SimulationContext)
    (event : AttackEvent) (branch : BranchState) (tgt : BattleSide)
    (attacker defender : PokemonState) (moveForCalc : MoveConfig)
    (comp : DamageComputation)
    (htgt0 : event.target.getD event.actor.other = tgt)
    (hsetup : attackSetup ctx event tgt branch = (attacker, defender, moveForCalc))
    (hcomp : ctx.computeDamage
      { attacker := attacker, defender := defender, move := moveForCalc,
        field := branch.field, actorSide := event.actor } = comp)
    (hterm : branch.terminated = false)
    (hactor : 0 < branch.hp.get event.actor)
    (htgt : 0 < branch.hp.get tgt)
    (hnea : tgt ≠ event.actor) :
    (processAttack event [branch] ctx).branches =
      comp.rolls.map (attackChild ctx event tgt branch attacker moveForCalc
        (resolveMoveType ctx.dexMoveType moveForCalc attacker)
        (branch.probability / comp.rolls.length)) ∧
    (processAttack event [branch] ctx).branches.length = comp.rolls.length ∧
    (∀ roll ∈ comp.rolls,
      (attackChild ctx event tgt branch attacker moveForCalc
        (resolveMoveType ctx.dexMoveType moveForCalc attacker)
        (branch.probability / comp.rolls.length) roll).probability =
          branch.probability / comp.rolls.length ∧
      (attackChild ctx event tgt branch attacker moveForCalc
        (resolveMoveType ctx.dexMoveType moveForCalc attacker)
        (branch.probability / comp.rolls.length) roll).hp.get tgt =
          branch.hp.get tgt - min roll.damage (branch.hp.get tgt) ∧
      0 ≤ (attackChild ctx event tgt branch attacker moveForCalc
        (resolveMoveType ctx.dexMoveType moveForCalc attacker)
        (branch.probability / comp.rolls.length) roll).hp.get tgt) := by
  have hbr : (processAttack event [branch] ctx).branches =
      comp.rolls.map (attackChild ctx event tgt branch attacker moveForCalc
        (resolveMoveType ctx.dexMoveType moveForCalc attacker)
        (branch.probability / comp.rolls.length)) := by
    unfold processAttack
    rw [htgt0]
    unfold processAttackGo
    rw [hterm]
    simp only [Bool.false_eq_true, if_false]
    rw [if_neg (by push_neg; exact ⟨hactor, htgt⟩)]
    dsimp only
    rw [hsetup]
    dsimp only
    rw [hcomp]
    unfold processAttackGo
    simp only [List.append_nil]
  refine ⟨hbr, by rw [hbr, List.length_map], ?_⟩
  intro roll _
  exact ⟨attackChild_probability _ _ _ _ _ _ _ _ _,
    attackChild_hp_tgt _ _ _ _ _ _ _ _ _ hnea,
    attackChild_hp_tgt_nonneg _ _ _ _ _ _ _ _ _ hnea⟩

/-- Witness for C2 with the two-roll oracle: the sample attack splits the
starting branch into exactly two children. -/
theorem processAttack_per_roll_split_witness :
    (processAttack Fixtures.sampleAttack [Fixtures.sampleBranch]
        Fixtures.sampleContext2).branches.length =
      Fixtures.sampleComputation2.rolls.length :=
  (processAttack_per_roll_split Fixtures.sampleContext2 Fixtures.sampleAttack
    Fixtures.sampleBranch .opponent _ _ _ Fixtures.sampleComputation2
    rfl rfl rfl (by decide) (by decide) (by decide) (by decide)).2.1


theorem processSwitchState_hp_zero (base : PokemonState) (e : SwitchEvent)
    (maxHP : ℚ) (h0 : 0 ≤ maxHP) (hshp : e.setHpPercent = some 0) :
    (processSwitchState base e maxHP).2 = 0 := by
  unfold processSwitchState
  dsimp only
  rw [hshp]
  dsimp only
  rw [min_eq_right (by norm_num : (0:ℚ) ≤ 100), max_self, mul_zero, zero_div,
    round_zero, Int.cast_zero, min_eq_right h0, max_self]

theorem processSwitchEvent_live (e : SwitchEvent) (b : BranchState)
    (side : BattleSide) (hb : b.terminated = false) (ha : e.actor = some side) :
    processSwitchEvent e [b] =
      [{ b with
          pokemon := b.pokemon.set side
            (processSwitchState (b.pokemon.get side) e (b.maxHP.get side)).1
          hp := b.hp.set side
            (processSwitchState (b.pokemon.get side) e (b.maxHP.get side)).2
          teraMode := b.teraMode.set side "none"
          teraType := b.teraType.set side none
          lastDamage := b.lastDamage.set side 0 }] := by
  unfold processSwitchEvent
  rw [ha]
  simp [hb]

/-- Counterexample for C3 as stated: first, a status event does modify a
terminated branch (the processStatusEvent loop has no terminated-branch
skip), so a terminated branch is not carried forward unmodified by every
subsequent event; second, a switch event whose setHpPercent is 0 drops a
live branch's HP on the acting side from a positive value to 0 without
terminating it (processSwitchState has no termination check), so
termination does not occur exactly when either side's HP reaches 0. -/
theorem terminated_invariant_cex :
    (processStatusEvent
        { actionId := "s1", actor := some BattleSide.player, status := some "brn" }
        [{ Fixtures.sampleBranch with terminated := true }] ≠
      [{ Fixtures.sampleBranch with terminated := true }]) ∧
    (0 < Fixtures.sampleBranch.hp.get BattleSide.player ∧
      Fixtures.sampleBranch.terminated = false ∧
      ∃ c ∈ processSwitchEvent
          { actionId := "w1", actor := some BattleSide.player,
            setHpPercent := some 0 }
          [Fixtures.sampleBranch],
        c.hp.get BattleSide.player = 0 ∧ c.terminated = false) := by
  constructor
  · decide
  · refine ⟨by decide, by decide, ?_⟩
    rw [processSwitchEvent_live _ _ BattleSide.player (by decide) rfl]
    refine ⟨_, List.mem_singleton.2 rfl, ?_, rfl⟩
    rw [PerSide.get_set_same]
    exact processSwitchState_hp_zero _ _ _ (by decide) rfl

theorem leftoversSide_terminated (b : BranchState) (side : BattleSide) :
    (leftoversSide b side).terminated = b.terminated := by
  unfold leftoversSide
  dsimp only
  split <;> rfl

/-- Claim C3 (amended): terminated branches pass through attack,
stat-change, hp-adjustment, healing, switch and leftovers processing
unmodified; status and field-toggle events instead apply to every branch
including terminated ones, changing only the status (resp. field) and
leaving HP, probability and the terminated flag intact; the terminated
flag is set exactly when a side's HP reaches 0 during attack processing
(a child branch is terminated iff the target's or the acting side's HP
has reached 0) and during damaging hp-adjustment processing (the branch
is terminated iff the adjusted side's HP has reached 0); switch events
never terminate a branch even though they can set a side's HP to 0, and
stat-change, healing and leftovers processing leave the terminated flag
unchanged. -/
theorem terminated_branch_handling :
    (∀ (ctx : SimulationContext) (e : AttackEvent) (b : BranchState),
      b.terminated = true → (processAttack e [b] ctx).branches = [b]) ∧
    (∀ (e : StatChangeEvent) (b : BranchState), b.terminated = true →
      processStatChange e [b] = [b]) ∧
    (∀ (e : HpAdjustmentEvent) (b : BranchState), b.terminated = true →
      processHpAdjustment e [b] = [b]) ∧
    (∀ (e : HealingEvent) (b : BranchState), b.terminated = true →
      processHealingEvent e [b] = [b]) ∧
    (∀ (e : SwitchEvent) (b : BranchState), b.terminated = true →
      processSwitchEvent e [b] = [b]) ∧
    (∀ b : BranchState, b.terminated = true → applyLeftoversRecovery [b] = [b]) ∧
    (∀ (e : StatusEvent) (side : BattleSide) (b : BranchState),
      e.actor = some side →
      processStatusEvent e [b] = [statusBranch e side b] ∧
      (statusBranch e side b).hp = b.hp ∧
      (statusBranch e side b).probability = b.probability ∧
      (statusBranch e side b).terminated = b.terminated) ∧
    (∀ (e : FieldToggleEvent) (b : BranchState),
      processFieldToggle e [b] =
        [{ b with field := mergeFieldStates b.field (e.field.getD {}) }]) ∧
    (∀ (ctx : SimulationContext) (e : AttackEvent) (tgt : BattleSide)
        (b : BranchState) (attacker : PokemonState) (mfc : MoveConfig)
        (mt : String) (rp : ℚ) (roll : DamageRollOutcome),
      b.terminated = false →
      ((attackChild ctx e tgt b attacker mfc mt rp roll).terminated = true ↔
        (attackChild ctx e tgt b attacker mfc mt rp roll).hp.get tgt ≤ 0 ∨
        (attackChild ctx e tgt b attacker mfc mt rp roll).hp.get e.actor ≤ 0)) ∧
    (∀ (e : HpAdjustmentEvent) (b : BranchState), b.terminated = false →
      e.isDamage = some true →
      ∀ c ∈ processHpAdjustment e [b],
        (c.terminated = true ↔ c.hp.get (e.target.getD e.actor) ≤ 0)) ∧
    (∀ (e : SwitchEvent) (b : BranchState), b.terminated = false →
      ∀ c ∈ processSwitchEvent e [b], c.terminated = false) ∧
    (∀ (e1 : StatChangeEvent) (e2 : HealingEvent) (b : BranchState),
      (∀ c ∈ processStatChange e1 [b], c.terminated = b.terminated) ∧
      (∀ c ∈ processHealingEvent e2 [b], c.terminated = b.terminated) ∧
      (∀ c ∈ applyLeftoversRecovery [b], c.terminated = b.terminated)) := by
  refine ⟨?_, ?_, ?_, ?_, ?_, ?_, ?_, ?_, ?_, ?_, ?_, ?_⟩
  · intro ctx e b hb
    unfold processAttack
    unfold processAttackGo
    rw [hb]
    simp only [if_true]
    unfold processAttackGo
    rfl
  · intro e b hb
    unfold processStatChange
    cases e.actor
    · rfl
    · simp [hb]
  · intro e b hb
    unfold processHpAdjustment
    simp [hb]
  · intro e b hb
    unfold processHealingEvent
    cases e.actor
    · rfl
    · simp [hb]
  · intro e b hb
    unfold processSwitchEvent
    cases e.actor
    · rfl
    · simp [hb]
  · intro b hb
    unfold applyLeftoversRecovery
    simp [hb]
  · intro e side b he
    unfold processStatusEvent
    rw [he]
    exact ⟨rfl, rfl, rfl, rfl⟩
  · intro e b
    rfl
  · intro ctx e tgt b attacker mfc mt rp roll hb
    exact attackChild_terminated_iff ctx e tgt b attacker mfc mt rp roll hb
  · intro e b hb hd c hc
    unfold processHpAdjustment at hc
    simp [hb] at hc
    subst hc
    unfold hpAdjustmentBranch
    dsimp only
    rw [if_pos hd]
    split
    · next hz => simp [PerSide.get_set_same, hz]
    · next hz => simp [hb, PerSide.get_set_same, hz]
  · intro e b hb c hc
    unfold processSwitchEvent at hc
    revert hc
    cases e.actor with
    | none =>
      intro hc
      simp at hc
      subst hc
      exact hb
    | some side =>
      intro hc
      simp [hb] at hc
      subst hc
      rfl
  · intro e1 e2 b
    refine ⟨?_, ?_, ?_⟩
    · intro c hc
      unfold processStatChange at hc
      revert hc
      cases e1.actor with
      | none =>
        intro hc
        simp at hc
        subst hc
        rfl
      | some side =>
        intro hc
        simp at hc
        subst hc
        split <;> rfl
    · intro c hc
      unfold processHealingEvent at hc
      revert hc
      cases e2.actor with
      | none =>
        intro hc
        simp at hc
        subst hc
        rfl
      | some side =>
        intro hc
        simp at hc
        subst hc
        split <;> rfl
    · intro c hc
      unfold applyLeftoversRecovery at hc
      simp at hc
      subst hc
      split
      · rfl
      · rw [leftoversSide_terminated, leftoversSide_terminated]

/-- Witness for the amended C3: a stat-change leaves a concrete
terminated branch untouched, a status event rewrites the status of a
live branch as described, and a damaging hp-adjustment on a concrete
live branch terminates it exactly when the adjusted side's HP reaches
0. -/
theorem terminated_branch_handling_witness :
    (processStatChange {} [{ Fixtures.sampleBranch with terminated := true }] =
        [{ Fixtures.sampleBranch with terminated := true }]) ∧
      (processStatusEvent
          { actionId := "s1", actor := some BattleSide.player, status := some "brn" }
          [Fixtures.sampleBranch] =
        [statusBranch
          { actionId := "s1", actor := some BattleSide.player, status := some "brn" }
          BattleSide.player Fixtures.sampleBranch]) ∧
      (∀ c ∈ processHpAdjustment
          { actionId := "h1", actor := BattleSide.player, amount := 1000,
            isDamage := some true }
          [Fixtures.sampleBranch],
        (c.terminated = true ↔ c.hp.get BattleSide.player ≤ 0)) :=
  ⟨terminated_branch_handling.2.1 {} _ rfl,
    (terminated_branch_handling.2.2.2.2.2.2.1
      { actionId := "s1", actor := some BattleSide.player, status := some "brn" }
      BattleSide.player Fixtures.sampleBranch rfl).1,
    terminated_branch_handling.2.2.2.2.2.2.2.2.2.1
      { actionId := "h1", actor := BattleSide.player, amount := 1000,
        isDamage := some true }
      Fixtures.sampleBranch rfl rfl⟩


theorem sumProb_nil : sumProb [] = 0 := rfl

theorem sumProb_cons (b : BranchState) (bs : List BranchState) :
    sumProb (b :: bs) = b.probability + sumProb bs := by
  simp [sumProb]

theorem sumProb_append (l1 l2 : List BranchState) :
    sumProb (l1 ++ l2) = sumProb l1 + sumProb l2 := by
  simp [sumProb]

theorem sumProb_map (bs : List BranchState) (f : BranchState → BranchState)
    (h : ∀ b, (f b).probability = b.probability) :
    sumProb (bs.map f) = sumProb bs := by
  induction bs with
  | nil => rfl
  | cons b rest ih =>
    rw [List.map_cons, sumProb_cons, sumProb_cons, h, ih]

theorem sumProb_map_const_prob (rolls : List DamageRollOutcome)
    (f : DamageRollOutcome → BranchState) (rp : ℚ)
    (h : ∀ r, (f r).probability = rp) :
    sumProb (rolls.map f) = rolls.length * rp := by
  induction rolls with
  | nil => simp [sumProb]
  | cons r rest ih =>
    rw [List.map_cons, sumProb_cons, h, ih]
    simp only [List.length_cons]
    push_cast
    ring

theorem leftoversSide_probability (b : BranchState) (side : BattleSide) :
    (leftoversSide b side).probability = b.probability := by
  unfold leftoversSide
  dsimp only
  split <;> rfl

theorem applyLeftoversRecovery_sum (bs : List BranchState) :
    sumProb (applyLeftoversRecovery bs) = sumProb bs := by
  unfold applyLeftoversRecovery
  apply sumProb_map
  intro b
  split
  · rfl
  · rw [leftoversSide_probability, leftoversSide_probability]

theorem hpAdjustmentBranch_probability (e : HpAdjustmentEvent) (b : BranchState) :
    (hpAdjustmentBranch e b).probability = b.probability := by
  unfold hpAdjustmentBranch
  dsimp only
  repeat' split
  all_goals rfl

theorem processStatChange_sum (e : StatChangeEvent) (bs : List BranchState) :
    sumProb (processStatChange e bs) = sumProb bs := by
  unfold processStatChange
  cases e.actor
  · rfl
  · apply sumProb_map
    intro b
    split <;> rfl

theorem processHpAdjustment_sum (e : HpAdjustmentEvent) (bs : List BranchState) :
    sumProb (processHpAdjustment e bs) = sumProb bs := by
  unfold processHpAdjustment
  apply sumProb_map
  intro b
  split
  · rfl
  · exact hpAdjustmentBranch_probability e b

theorem processHealingEvent_sum (e : HealingEvent) (bs : List BranchState) :
    sumProb (processHealingEvent e bs) = sumProb bs := by
  unfold processHealingEvent
  cases e.actor
  · rfl
  · apply sumProb_map
    intro b
    split <;> rfl

theorem processStatusEvent_sum (e : StatusEvent) (bs : List BranchState) :
    sumProb (processStatusEvent e bs) = sumProb bs := by
  unfold processStatusEvent
  cases e.actor
  · rfl
  · apply sumProb_map
    intro b
    rfl

theorem processSwitchEvent_sum (e : SwitchEvent) (bs : List BranchState) :
    sumProb (processSwitchEvent e bs) = sumProb bs := by
  unfold processSwitchEvent
  cases e.actor
  · rfl
  · apply sumProb_map
    intro b
    split <;> rfl

theorem processFieldToggle_sum (e : FieldToggleEvent) (bs : List BranchState) :
    sumProb (processFieldToggle e bs) = sumProb bs := by
  unfold processFieldToggle
  apply sumProb_map
  intro b
  rfl

theorem processAttackGo_sum (ctx : SimulationContext) (event : AttackEvent)
    (tgt : BattleSide) (hcalc : ∀ q, (ctx.computeDamage q).rolls ≠ [])
    (bs : List BranchState) (accRolls : List ℚ) :
    sumProb (processAttackGo ctx event tgt bs accRolls).1 = sumProb bs := by
  induction bs generalizing accRolls with
  | nil => rfl
  | cons b rest ih =>
    unfold processAttackGo
    by_cases hb : b.terminated = true
    · simp only [hb, if_true]
      rw [sumProb_cons, sumProb_cons, ih]
    · simp only [hb, Bool.false_eq_true, if_false]
      by_cases hhp : b.hp.get event.actor ≤ 0 ∨ b.hp.get tgt ≤ 0
      · rw [if_pos hhp]
        rw [sumProb_cons, sumProb_cons, ih]
      · rw [if_neg hhp]
        dsimp only
        rw [sumProb_append, ih]
        have hlen : ((ctx.computeDamage
            { attacker := (attackSetup ctx event tgt b).1
              defender := (attackSetup ctx event tgt b).2.1
              move := (attackSetup ctx event tgt b).2.2
              field := b.field, actorSide := event.actor }).rolls).length ≠ 0 :=
          fun h0 => hcalc _ (List.length_eq_zero.1 h0)
        rw [sumProb_map_const_prob _ _ _
          (fun r => attackChild_probability ctx event tgt b _ _ _ _ r)]
        rw [sumProb_cons]
        have hq : ((ctx.computeDamage
            { attacker := (attackSetup ctx event tgt b).1
              defender := (attackSetup ctx event tgt b).2.1
              move := (attackSetup ctx event tgt b).2.2
              field := b.field, actorSide := event.actor }).rolls.length : ℚ) ≠ 0 := by
          exact_mod_cast hlen
        field_simp

theorem processAttack_sum (ctx : SimulationContext) (event : AttackEvent)
    (hcalc : ∀ q, (ctx.computeDamage q).rolls ≠ []) (bs : List BranchState) :
    sumProb (processAttack event bs ctx).branches = sumProb bs := by
  unfold processAttack
  exact processAttackGo_sum ctx event _ hcalc bs []

theorem bumpFirst_sum (acc : List (BranchKey × BranchState)) (key : BranchKey)
    (p : ℚ) (h : ∃ e ∈ acc, e.1 = key) :
    sumProb ((bumpFirst acc key p).map Prod.snd) =
      sumProb (acc.map Prod.snd) + p := by
  induction acc with
  | nil =>
    rcases h with ⟨e, he, _⟩
    exact absurd he (List.not_mem_nil e)
  | cons e rest ih =>
    unfold bumpFirst
    by_cases he : e.1 = key
    · rw [if_pos he]
      simp only [List.map_cons, sumProb_cons]
      ring
    · rw [if_neg he]
      rcases h with ⟨e2, he2, hk⟩
      rcases List.mem_cons.1 he2 with rfl | hmem
      · exact absurd hk he
      · simp only [List.map_cons, sumProb_cons]
        rw [ih ⟨e2, hmem, hk⟩]
        ring

theorem mergeFold_sum (bs : List BranchState)
    (acc : List (BranchKey × BranchState)) :
    sumProb ((bs.foldl mergeStep acc).map Prod.snd) =
      sumProb (acc.map Prod.snd) + sumProb bs := by
  induction bs generalizing acc with
  | nil => simp [sumProb]
  | cons b rest ih =>
    rw [List.foldl_cons, ih, sumProb_cons]
    have hstep : sumProb ((mergeStep acc b).map Prod.snd) =
        sumProb (acc.map Prod.snd) + b.probability := by
      unfold mergeStep
      by_cases hf : (acc.find? (fun entry => entry.1 = buildBranchKey b)).isSome
      · rw [if_pos hf]
        rcases Option.isSome_iff_exists.1 hf with ⟨e, hfind⟩
        refine bumpFirst_sum acc (buildBranchKey b) b.probability
          ⟨e, List.mem_of_find?_eq_some hfind, ?_⟩
        have hp := List.find?_some hfind
        exact of_decide_eq_true hp
      · rw [if_neg hf]
        rw [List.map_append, sumProb_append]
        simp [sumProb]
    rw [hstep]
    ring

theorem sumProb_mergeBranches (bs : List BranchState) :
    sumProb (mergeBranches bs) = sumProb bs := by
  unfold mergeBranches
  rw [mergeFold_sum]
  simp [sumProb]

theorem processEvent_sum (ctx : SimulationContext) (e : BattleEvent)
    (bs : List BranchState)
    (hcalc : ∀ q, (ctx.computeDamage q).rolls ≠ []) :
    sumProb (processEvent e bs ctx).branches = sumProb bs := by
  cases e with
  | attack ev => exact processAttack_sum ctx ev hcalc bs
  | statChange ev => exact processStatChange_sum ev bs
  | hpAdjustment ev => exact processHpAdjustment_sum ev bs
  | healing ev => exact processHealingEvent_sum ev bs
  | status ev => exact processStatusEvent_sum ev bs
  | fieldToggle ev => exact processFieldToggle_sum ev bs
  | switch ev => exact processSwitchEvent_sum ev bs
  | abilityActivation id => rfl

theorem processAction_sum (ctx : SimulationContext) (a : BattleAction)
    (bs : List BranchState)
    (hcalc : ∀ q, (ctx.computeDamage q).rolls ≠ []) :
    sumProb (processAction a bs ctx).branches = sumProb bs := by
  cases a with
  | move id actor mv target teraMode teraType =>
    unfold processAction
    dsimp only
    exact processAttack_sum ctx _ hcalc bs
  | switch id actor targetSpecies setHpPercent ability item =>
    unfold processAction
    dsimp only
    exact processSwitchEvent_sum _ bs
  | pass id actor => rfl

/-- Claim C1: every branch set reachable during simulateTimeline — the
initial singleton, the merged result of each processed action or
auxiliary event, and each leftovers-recovery step — carries total
probability mass exactly 1, provided the damage oracle returns at least
one roll for every query (the per-roll split hands each of the n
children mass parent/n and the merge sums masses, so both preserve the
total).  Exact mass 1 subsumes the specification's floating-point
tolerance of 1e-6. -/
theorem reachable_mass_one (ctx : SimulationContext)
    (hcalc : ∀ q, (ctx.computeDamage q).rolls ≠ []) :
    ∀ {bs : List BranchState}, Reachable ctx bs → sumProb bs = 1 := by
  intro bs h
  induction h with
  | initial => simp [sumProb, createInitialBranch]
  | eventStep e hr ih =>
    rw [sumProb_mergeBranches, processEvent_sum ctx e _ hcalc]
    exact ih
  | actionStep a hr ih =>
    rw [sumProb_mergeBranches, processAction_sum ctx a _ hcalc]
    exact ih
  | leftoversStep hr ih =>
    rw [applyLeftoversRecovery_sum]
    exact ih

/-- Witness for C1: the initial branch set of the concrete sample context
has total mass 1. -/
theorem reachable_mass_one_witness :
    sumProb [createInitialBranch Fixtures.sampleContext.pokemon
      Fixtures.sampleContext.field] = 1 :=
  reachable_mass_one Fixtures.sampleContext
    (fun _ => by simp [Fixtures.sampleContext, Fixtures.sampleComputation])
    Reachable.initial

end Timeline

namespace Worker

theorem evalLoop_no_complete (r r2 : String) (env : WorkerEnv) (i : ℕ) :
    WorkerMsg.complete r2 ∉ (evalLoop r env i).1 := by
  induction i using evalLoop.induct r env with
  | case1 i hlt hact => rw [evalLoop, if_pos hlt, if_pos hact]; simp
  | case2 i hlt hact hcan =>
    rw [evalLoop, if_pos hlt, if_neg hact, if_pos hcan]
    simp
  | case3 i hlt hact hcan htime =>
    rw [evalLoop, if_pos hlt, if_neg hact, if_neg hcan]
    dsimp only
    rw [if_pos htime]
    intro h
    rcases List.mem_append.1 h with h | h
    · revert h
      split <;> simp
    · simp at h
  | case4 i hlt hact hcan htime ih =>
    rw [evalLoop, if_pos hlt, if_neg hact, if_neg hcan]
    dsimp only
    rw [if_neg htime]
    intro h
    rcases List.mem_append.1 h with h | h
    · revert h
      split <;> simp
    · exact ih h
  | case5 i hlt =>
    rw [evalLoop, if_neg hlt]
    simp

theorem evalLoop_cancel_mem (r : String) (env : WorkerEnv) (i : ℕ)
    (h : (evalLoop r env i).2 = EvalOutcome.stoppedCancelled) :
    WorkerMsg.cancelled r ∈ (evalLoop r env i).1 := by
  induction i using evalLoop.induct r env with
  | case1 i hlt hact => rw [evalLoop, if_pos hlt, if_pos hact] at h ⊢; simp at h
  | case2 i hlt hact hcan =>
    rw [evalLoop, if_pos hlt, if_neg hact, if_pos hcan]
    simp
  | case3 i hlt hact hcan htime =>
    rw [evalLoop, if_pos hlt, if_neg hact, if_neg hcan] at h
    dsimp only at h
    rw [if_pos htime] at h
    simp at h
  | case4 i hlt hact hcan htime ih =>
    rw [evalLoop, if_pos hlt, if_neg hact, if_neg hcan] at h ⊢
    dsimp only at h ⊢
    rw [if_neg htime] at h ⊢
    refine List.mem_append.2 (Or.inr ?_)
    exact ih h
  | case5 i hlt =>
    rw [evalLoop, if_neg hlt] at h
    simp at h

theorem evalLoop_timeout_mem (r : String) (env : WorkerEnv) (i p : ℕ)
    (h : (evalLoop r env i).2 = EvalOutcome.stoppedTimeout p) :
    WorkerMsg.errorTimeout r p env.total ∈ (evalLoop r env i).1 := by
  induction i using evalLoop.induct r env with
  | case1 i hlt hact => rw [evalLoop, if_pos hlt, if_pos hact] at h; simp at h
  | case2 i hlt hact hcan =>
    rw [evalLoop, if_pos hlt, if_neg hact, if_pos hcan] at h
    simp at h
  | case3 i hlt hact hcan htime =>
    rw [evalLoop, if_pos hlt, if_neg hact, if_neg hcan] at h ⊢
    dsimp only at h ⊢
    rw [if_pos htime] at h ⊢
    simp only [Prod.snd] at h
    have hp : p = i + 1 := by
      cases h
      rfl
    refine List.mem_append.2 (Or.inr ?_)
    simp [hp]
  | case4 i hlt hact hcan htime ih =>
    rw [evalLoop, if_pos hlt, if_neg hact, if_neg hcan] at h ⊢
    dsimp only at h ⊢
    rw [if_neg htime] at h ⊢
    refine List.mem_append.2 (Or.inr ?_)
    exact ih h
  | case5 i hlt =>
    rw [evalLoop, if_neg hlt] at h
    simp at h

theorem evaluateGridPointsMsgs_fst (r : String) (env : WorkerEnv) :
    (evaluateGridPointsMsgs r env).1 =
      WorkerMsg.progress r 0 env.total "processing" :: (evalLoop r env 0).1 := rfl

theorem evaluateGridPointsMsgs_snd (r : String) (env : WorkerEnv) :
    (evaluateGridPointsMsgs r env).2 = (evalLoop r env 0).2 := rfl

theorem evaluateGridPointsMsgs_no_complete (r r2 : String) (env : WorkerEnv) :
    WorkerMsg.complete r2 ∉ (evaluateGridPointsMsgs r env).1 := by
  rw [evaluateGridPointsMsgs_fst]
  intro h
  rcases List.mem_cons.1 h with h | h
  · simp at h
  · exact evalLoop_no_complete r r2 env 0 h

theorem runSimulationMsgs_defense (requestId : String) (cfg : JobConfig)
    (envDef envOff : WorkerEnv) (hd : needDefenseGrid cfg = true) :
    runSimulationMsgs requestId cfg envDef envOff =
      if (evaluateGridPointsMsgs requestId envDef).2 = EvalOutcome.completed then
        WorkerMsg.progress requestId 0 0 "initializing" ::
          (evaluateGridPointsMsgs requestId envDef).1 ++
            runOffenseStage requestId cfg envOff
      else
        WorkerMsg.progress requestId 0 0 "initializing" ::
          (evaluateGridPointsMsgs requestId envDef).1 := by
  have hen : cfg.enabled = true := by
    have hd2 := hd
    unfold needDefenseGrid at hd2
    exact (Bool.and_eq_true _ _ ▸ hd2).1
  unfold runSimulationMsgs
  simp only [hen, Bool.not_true, Bool.false_and, Bool.false_eq_true, if_false,
    hd, if_true]

theorem runSimulationMsgs_offense_only (requestId : String) (cfg : JobConfig)
    (envDef envOff : WorkerEnv) (hd : needDefenseGrid cfg = false)
    (ho : needOffenseGrid cfg = true) :
    runSimulationMsgs requestId cfg envDef envOff =
      WorkerMsg.progress requestId 0 0 "initializing" ::
        runOffenseStage requestId cfg envOff := by
  have hen : cfg.enabled = true := by
    have ho2 := ho
    unfold needOffenseGrid at ho2
    exact (Bool.and_eq_true _ _ ▸ ho2).1
  unfold runSimulationMsgs
  simp only [hen, Bool.not_true, Bool.false_and, Bool.false_eq_true, if_false,
    hd, if_true]

theorem runOffenseStage_run (requestId : String) (cfg : JobConfig)
    (envOff : WorkerEnv) (ho : needOffenseGrid cfg = true) :
    runOffenseStage requestId cfg envOff =
      if (evaluateGridPointsMsgs requestId envOff).2 = EvalOutcome.completed then
        (evaluateGridPointsMsgs requestId envOff).1 ++
          [WorkerMsg.complete requestId]
      else (evaluateGridPointsMsgs requestId envOff).1 := by
  unfold runOffenseStage
  simp only [ho, if_true]

/-- Claim C7: during grid evaluation, a job whose cancellation flag is
observed emits a cancelled response and never a complete response, and a
job whose wall-clock deadline is exceeded emits an error response
reporting the number of processed points out of the total and never a
complete response — for the defensive stage, and likewise for the
offensive stage once the defensive stage (when requested) has completed. -/
theorem worker_terminal_responses (requestId : String) (cfg : JobConfig)
    (envDef envOff : WorkerEnv) :
    (needDefenseGrid cfg = true →
      ((evalLoop requestId envDef 0).2 = EvalOutcome.stoppedCancelled →
        WorkerMsg.cancelled requestId ∈
            runSimulationMsgs requestId cfg envDef envOff ∧
          WorkerMsg.complete requestId ∉
            runSimulationMsgs requestId cfg envDef envOff) ∧
      (∀ p : ℕ, (evalLoop requestId envDef 0).2 = EvalOutcome.stoppedTimeout p →
        WorkerMsg.errorTimeout requestId p envDef.total ∈
            runSimulationMsgs requestId cfg envDef envOff ∧
          WorkerMsg.complete requestId ∉
            runSimulationMsgs requestId cfg envDef envOff)) ∧
    (needOffenseGrid cfg = true →
      (needDefenseGrid cfg = true →
        (evalLoop requestId envDef 0).2 = EvalOutcome.completed) →
      ((evalLoop requestId envOff 0).2 = EvalOutcome.stoppedCancelled →
        WorkerMsg.cancelled requestId ∈
            runSimulationMsgs requestId cfg envDef envOff ∧
          WorkerMsg.complete requestId ∉
            runSimulationMsgs requestId cfg envDef envOff) ∧
      (∀ p : ℕ, (evalLoop requestId envOff 0).2 = EvalOutcome.stoppedTimeout p →
        WorkerMsg.errorTimeout requestId p envOff.total ∈
            runSimulationMsgs requestId cfg envDef envOff ∧
          WorkerMsg.complete requestId ∉
            runSimulationMsgs requestId cfg envDef envOff)) := by
  constructor
  · intro hd
    have hstop : ∀ o : EvalOutcome, (evalLoop requestId envDef 0).2 = o →
        o ≠ EvalOutcome.completed →
        runSimulationMsgs requestId cfg envDef envOff =
          WorkerMsg.progress requestId 0 0 "initializing" ::
            (evaluateGridPointsMsgs requestId envDef).1 := by
      intro o ho hno
      rw [runSimulationMsgs_defense requestId cfg envDef envOff hd]
      rw [if_neg (by rw [evaluateGridPointsMsgs_snd, ho]; exact hno)]
    constructor
    · intro hc
      rw [hstop _ hc (by simp)]
      constructor
      · refine List.mem_cons_of_mem _ ?_
        rw [evaluateGridPointsMsgs_fst]
        exact List.mem_cons_of_mem _ (evalLoop_cancel_mem requestId envDef 0 hc)
      · intro h
        rcases List.mem_cons.1 h with h | h
        · simp at h
        · exact evaluateGridPointsMsgs_no_complete requestId requestId envDef h
    · intro p hp
      rw [hstop _ hp (by simp)]
      constructor
      · refine List.mem_cons_of_mem _ ?_
        rw [evaluateGridPointsMsgs_fst]
        exact List.mem_cons_of_mem _ (evalLoop_timeout_mem requestId envDef 0 p hp)
      · intro h
        rcases List.mem_cons.1 h with h | h
        · simp at h
        · exact evaluateGridPointsMsgs_no_complete requestId requestId envDef h
  · intro ho hdc
    have hshape : ∀ o : EvalOutcome, (evalLoop requestId envOff 0).2 = o →
        o ≠ EvalOutcome.completed →
        ∃ pre : List WorkerMsg,
          runSimulationMsgs requestId cfg envDef envOff =
            pre ++ (evaluateGridPointsMsgs requestId envOff).1 ∧
          WorkerMsg.complete requestId ∉ pre := by
      intro o hoo hno
      have hoff : runOffenseStage requestId cfg envOff =
          (evaluateGridPointsMsgs requestId envOff).1 := by
        rw [runOffenseStage_run requestId cfg envOff ho]
        rw [if_neg (by rw [evaluateGridPointsMsgs_snd, hoo]; exact hno)]
      by_cases hd : needDefenseGrid cfg = true
      · rw [runSimulationMsgs_defense requestId cfg envDef envOff hd]
        rw [if_pos (by rw [evaluateGridPointsMsgs_snd]; exact hdc hd), hoff]
        refine ⟨WorkerMsg.progress requestId 0 0 "initializing" ::
          (evaluateGridPointsMsgs requestId envDef).1, by simp, ?_⟩
        intro h
        rcases List.mem_cons.1 h with h | h
        · simp at h
        · exact evaluateGridPointsMsgs_no_complete requestId requestId envDef h
      · rw [runSimulationMsgs_offense_only requestId cfg envDef envOff
          (Bool.not_eq_true _ ▸ Bool.eq_false_iff.2 hd) ho, hoff]
        refine ⟨[WorkerMsg.progress requestId 0 0 "initializing"], rfl, ?_⟩
        simp
    constructor
    · intro hc
      obtain ⟨pre, hmsgs, hpre⟩ := hshape _ hc (by simp)
      rw [hmsgs]
      constructor
      · refine List.mem_append.2 (Or.inr ?_)
        rw [evaluateGridPointsMsgs_fst]
        exact List.mem_cons_of_mem _ (evalLoop_cancel_mem requestId envOff 0 hc)
      · intro h
        rcases List.mem_append.1 h with h | h
        · exact hpre h
        · exact evaluateGridPointsMsgs_no_complete requestId requestId envOff h
    · intro p hp
      obtain ⟨pre, hmsgs, hpre⟩ := hshape _ hp (by simp)
      rw [hmsgs]
      constructor
      · refine List.mem_append.2 (Or.inr ?_)
        rw [evaluateGridPointsMsgs_fst]
        exact List.mem_cons_of_mem _ (evalLoop_timeout_mem requestId envOff 0 p hp)
      · intro h
        rcases List.mem_append.1 h with h | h
        · exact hpre h
        · exact evaluateGridPointsMsgs_no_complete requestId requestId envOff h

/-- Witness for C7: a one-point defensive-grid job whose cancellation
flag is up at the first check emits a cancelled response and no complete
response. -/
theorem worker_terminal_responses_witness :
    WorkerMsg.cancelled "job1" ∈
        runSimulationMsgs "job1" Fixtures.sampleJobConfig Fixtures.cancelEnv
          Fixtures.cancelEnv ∧
      WorkerMsg.complete "job1" ∉
        runSimulationMsgs "job1" Fixtures.sampleJobConfig Fixtures.cancelEnv
          Fixtures.cancelEnv :=
  ((worker_terminal_responses "job1" Fixtures.sampleJobConfig Fixtures.cancelEnv
      Fixtures.cancelEnv).1 rfl).1
    (by
      rw [evalLoop, if_pos (by norm_num [Fixtures.cancelEnv]),
        if_neg (by norm_num [Fixtures.cancelEnv]),
        if_pos (by norm_num [Fixtures.cancelEnv])])

end Worker
